import Mathlib

/-!
Bundler.mjs: descriptor generation and mode dispatch.

A shallow embedding of `src/build/Bundler.mjs`.  The class `Bundler` keeps three
fields (`bundles`, `env`, `version`); its methods call four synchronous
functions of external libraries (`fs.emptyDirSync`, `fs.readFileSync`,
`fs.outputFileSync`, `globbySync`).  Those four are taken as a record of
fallible operations over an arbitrary file-system state, so every method is a
function from state to `Except JsError` state.  Where the state reached by a
run that throws matters, the fallible methods are read a second time with that
state kept (namespace `World`); the two readings are proved to agree.

JavaScript strings are modelled by `String`; the string primitives the source
uses (`replace` with a global regex, `replace` with a string pattern, `split`,
`includes`) are defined on the underlying character lists.
-/

namespace Bundler

/-! ## String primitives used by the source -/

/-- The character-level meaning of `content.replace(/\r\n/g, '\n')`: one scan
from left to right, every carriage-return that is directly followed by a
line-feed is dropped together with it and a single line-feed is emitted; every
other character is copied. -/
def replaceCRLFChars : List Char → List Char
  | [] => []
  | c :: d :: rest =>
    if c = '\r' ∧ d = '\n' then '\n' :: replaceCRLFChars rest
    else c :: replaceCRLFChars (d :: rest)
  | [c] => [c]

/-- The string-level meaning of `content.replace(/\r\n/g, '\n')`. -/
def replaceCRLF (s : String) : String := ⟨replaceCRLFChars s.data⟩

/-- The character-level meaning of `text.replace(pattern, replacement)` with a
string pattern: only the first (leftmost) occurrence of the pattern is
replaced.  The replacement strings of the source contain no `$`. -/
def replaceFirstChars (pat rep : List Char) : List Char → List Char
  | [] => if pat = [] then rep else []
  | c :: cs =>
    if pat.isPrefixOf (c :: cs) then rep ++ (c :: cs).drop pat.length
    else c :: replaceFirstChars pat rep cs

/-- The string-level meaning of `text.replace(pattern, replacement)`. -/
def replaceFirst (text pat rep : String) : String :=
  ⟨replaceFirstChars pat.data rep.data text.data⟩

/-- The character-level meaning of `text.split(sep)` for a one-character
separator: the pieces between the separators, at least one piece. -/
def splitChars (sep : Char) : List Char → List (List Char)
  | [] => [[]]
  | c :: cs =>
    if c = sep then [] :: splitChars sep cs
    else
      match splitChars sep cs with
      | [] => [[c]]
      | piece :: pieces => (c :: piece) :: pieces

/-- The meaning of `text.split("/").pop()`: the last piece of the path. -/
def lastSegment (text : String) : String :=
  ⟨((splitChars '/' text.data).getLast?).getD []⟩

/-- The meaning of `text.includes(fragment)`. -/
def includes (text fragment : String) : Bool :=
  decide (fragment.data <:+: text.data)

/-! ## Warnings -/

/-- An error thrown while a method runs: a `TypeError` raised by the JavaScript run
time, or the error thrown by a library call, with its message. -/
inductive JsError
  | typeError
  | library (message : String)
deriving DecidableEq, Repr

/-- A warning event handed to `onwarn` by the bundling engine. -/
structure WarningEvent where
  code : String
  importer : String
  message : String
deriving DecidableEq, Repr

/-- The value of the lookup `ignoredCodes[warn.code]`.  `ignoredCodes` is an
object literal, so the bracket lookup finds its own property
`FILE_NAME_CONFLICT` and also every property it inherits from
`Object.prototype`. -/
inductive CodeHandler
  /-- No such property. -/
  | undefined
  /-- An own property of the table. -/
  | boolean (b : Bool)
  /-- The accessor `__proto__`: it yields the prototype object, which is truthy and not a function. -/
  | prototypeObject
  /-- A method inherited from `Object.prototype`, by name. -/
  | inherited (method : String)
deriving DecidableEq, Repr

/-- The names of the methods of `Object.prototype`. -/
def objectPrototypeMethods : List String :=
  ["constructor", "__defineGetter__", "__defineSetter__", "hasOwnProperty",
   "__lookupGetter__", "__lookupSetter__", "isPrototypeOf", "propertyIsEnumerable",
   "toString", "valueOf", "toLocaleString"]

/-- The lookup `ignoredCodes[code]` for `const ignoredCodes = \x7b "FILE_NAME_CONFLICT": true \x7d`. -/
def ignoredCodes (code : String) : CodeHandler :=
  if code = "FILE_NAME_CONFLICT" then CodeHandler.boolean true
  else if code = "__proto__" then CodeHandler.prototypeObject
  else if code ∈ objectPrototypeMethods then CodeHandler.inherited code
  else CodeHandler.undefined

/-- The truthiness of `codeHandler(warn)` for a method inherited from
`Object.prototype`, called as a plain function in module (strict) code, so with
`this` undefined and the warning object as its argument: `constructor` returns
the warning object and `toString` returns `"[object Undefined]"`, both truthy;
every other method converts `this` to an object first and throws. -/
def callInherited (method : String) : Except JsError Bool :=
  if method = "constructor" ∨ method = "toString" then Except.ok true
  else Except.error JsError.typeError

/-- The method `_suppressUnnecessaryWarnings(warn, defaultHandler)`.  The result is
the list of warnings passed to `defaultHandler`, in call order, or the error
that escaped. -/
def _suppressUnnecessaryWarnings (warn : WarningEvent) : Except JsError (List WarningEvent) := do
  let suppressed ←
    match ignoredCodes warn.code with
    | CodeHandler.undefined => pure false
    | CodeHandler.boolean b => pure b
    | CodeHandler.prototypeObject => pure true
    | CodeHandler.inherited method => callInherited method
  if !suppressed then pure [warn] else pure []

/-- The method `_suppressCircularDependencyWarnings(warn)`. -/
def _suppressCircularDependencyWarnings (warn : WarningEvent) : Bool :=
  let ignoredCircularFiles := ["Column.js", "Tabulator.js"]
  ignoredCircularFiles.any (fun file => includes warn.importer file)

/-! ## Artifacts and the end-of-line hook -/

/-- The `source` field of a generated artifact: absent, text, or binary content
(a `Uint8Array`, kept as its bytes). -/
inductive Source
  | undefined
  | text (content : String)
  | binary (bytes : List Nat)
deriving DecidableEq, Repr

/-- One generated artifact of the engine's output bundle.  `code` is absent
(`none`) or a string; `rest` holds every other property of the artifact. -/
structure Artifact where
  type : String
  code : Option String
  source : Source
  rest : List (String × String)
deriving DecidableEq, Repr

/-- The body of the loop of `generateBundle` for one artifact `bundle[fileName]`.
An empty string is falsy, so an empty `code` or `source` is not rewritten. -/
def normalizeArtifact (a : Artifact) : Artifact :=
  if a.type = "asset" ∨ a.type = "chunk" then
    let code :=
      match a.code with
      | some c => if c ≠ "" then some (replaceCRLF c) else some c
      | none => none
    let source :=
      match a.source with
      | Source.text c => if c ≠ "" then Source.text (replaceCRLF c) else Source.text c
      | other => other
    { a with code := code, source := source }
  else a

/-- The hook `generateBundle(options, bundle)` of the plugin returned by
`_getEOLPlugin()`.  The bundle object is the list of its `fileName`/artifact
entries in enumeration order; the hook updates every entry in place. -/
def generateBundle (bundle : List (String × Artifact)) : List (String × Artifact) :=
  bundle.map (fun entry => (entry.1, normalizeArtifact entry.2))

/-! ## Bundle descriptors -/

/-- The options object passed to `postcss(...)`. -/
structure PostcssOptions where
  modules : Bool
  extract : Bool
  minimize : Bool
  sourceMap : Bool
  plugins : List String
deriving DecidableEq, Repr

/-- The banner object passed to `license(...)`. -/
structure Banner where
  commentStyle : String
  content : String
deriving DecidableEq, Repr

/-- A transform step, as constructed by the source. -/
inductive Plugin
  | postcss (options : PostcssOptions)
  | nodeResolve
  | terser
  | license (banner : Banner)
  /-- The object returned by `_getEOLPlugin()`; its hook is `generateBundle`. -/
  | eolPlugin
deriving DecidableEq, Repr

/-- The `name` property of the object returned by `_getEOLPlugin()`. -/
def eolPluginName : String := "eol-plugin"

/-- The method `_getEOLPlugin()`. -/
def _getEOLPlugin : Plugin := Plugin.eolPlugin

/-- One output object of a descriptor; a property the source does not set is `none`. -/
structure OutputSpec where
  file : String
  format : String
  name : Option String
  esModule : Option Bool
  exports : Option String
  sourcemap : Option Bool
deriving DecidableEq, Repr

/-- The `output` property of a descriptor: one object, or an array of objects. -/
inductive Output
  | single (spec : OutputSpec)
  | many (specs : List OutputSpec)
deriving DecidableEq, Repr

/-- The `onwarn` property of a descriptor: which method of the class is bound. -/
inductive WarnHandler
  | suppressUnnecessaryWarnings
deriving DecidableEq, Repr

/-- Calling the bound `onwarn(warn, defaultHandler)`. -/
def WarnHandler.call (h : WarnHandler) (warn : WarningEvent) : Except JsError (List WarningEvent) :=
  match h with
  | WarnHandler.suppressUnnecessaryWarnings => _suppressUnnecessaryWarnings warn

/-- A bundle descriptor.  An entry of `plugins` is `none` where the source puts `null`. -/
structure Descriptor where
  input : String
  plugins : List (Option Plugin)
  output : Output
  onwarn : WarnHandler
deriving DecidableEq, Repr

/-- The object built by the callback of `bundleCSS(minify)` for one discovered file. -/
def cssDescriptor (minify : Bool) (inputFile : String) : Descriptor :=
  let file := replaceFirst (lastSegment inputFile) ".scss" ((if minify then ".min" else "") ++ ".css")
  { input := inputFile
    output := Output.single
      { file := "./dist/css/" ++ file, format := "es",
        name := none, esModule := none, exports := none, sourcemap := none }
    plugins :=
      [ some (Plugin.postcss
          { modules := false, extract := true, minimize := minify, sourceMap := true,
            plugins := ["postcss-prettify"] }),
        some _getEOLPlugin ]
    onwarn := WarnHandler.suppressUnnecessaryWarnings }

/-- The object pushed by `bundleESM(minify)`; `version` is the field `this.version`. -/
def esmDescriptor (version : String) (minify : Bool) : Descriptor :=
  { input := "src/js/builds/esm.js"
    plugins :=
      [ some Plugin.nodeResolve,
        if minify then some Plugin.terser else none,
        some (Plugin.license { commentStyle := "none", content := version }),
        some _getEOLPlugin ]
    output := Output.many
      [ { file := "dist/js/tabulator_esm" ++ (if minify then ".min" else "") ++ ".js",
          format := "esm", name := none, esModule := none,
          exports := some "named", sourcemap := some true },
        { file := "dist/js/tabulator_esm" ++ (if minify then ".min" else "") ++ ".mjs",
          format := "esm", name := none, esModule := none,
          exports := some "named", sourcemap := some true } ]
    onwarn := WarnHandler.suppressUnnecessaryWarnings }

/-- The object pushed by `bundleUMD(minify)`; `version` is the field `this.version`. -/
def umdDescriptor (version : String) (minify : Bool) : Descriptor :=
  { input := "src/js/builds/usd.js"
    plugins :=
      [ some Plugin.nodeResolve,
        if minify then some Plugin.terser else none,
        some (Plugin.license { commentStyle := "none", content := version }),
        some _getEOLPlugin ]
    output := Output.single
      { file := "dist/js/tabulator" ++ (if minify then ".min" else "") ++ ".js",
        format := "umd", name := some "Tabulator", esModule := some false,
        exports := some "default", sourcemap := some true }
    onwarn := WarnHandler.suppressUnnecessaryWarnings }

/-! ## The class state and the external operations -/

/-- The four synchronous library functions the class calls, over a file-system
state `σ`: `fs.emptyDirSync(dir)`, `fs.readFileSync(path, "utf8")`,
`fs.outputFileSync(path, content)` and `globbySync(pattern)`.  Each may throw. -/
structure FsOps (σ : Type) where
  emptyDirSync : String → σ → Except JsError σ
  readFileSync : String → σ → Except JsError String
  outputFileSync : String → String → σ → Except JsError σ
  globbySync : String → σ → Except JsError (List String)

/-- The fields of a `Bundler` object together with the world it acts on: the
file system and the lines written with `console.log` (one argument list per call). -/
structure State (σ : Type) where
  bundles : List Descriptor
  env : Option String
  version : String
  fs : σ
  console : List (List String)

/-- The value the constructor assigns to `this.version`. -/
def banner (version : String) : String :=
  "/* Tabulator v" ++ version ++ " (c) Oliver Folkerd <%= moment().format('YYYY') %> */"

/-- The constructor `new Bundler(version, env)`, in a world with file system `fs`.
An absent `env` is `none`. -/
def constructor {σ : Type} (version : String) (env : Option String) (fs : σ) : State σ :=
  { bundles := []
    env := env
    version := banner version
    fs := fs
    console := [] }

/-- The effect of `console.log(...args)`. -/
def consoleLog {σ : Type} (args : List String) (s : State σ) : State σ :=
  { s with console := s.console ++ [args] }

/-- The method `clearDist()`. -/
def clearDist {σ : Type} (ops : FsOps σ) (s : State σ) : Except JsError (State σ) := do
  let fs ← ops.emptyDirSync "./dist" s.fs
  pure { s with fs := fs }

/-- The callback of `builds.forEach` in `buildWrappers()`, for one file name. -/
def copyWrapper {σ : Type} (ops : FsOps σ) (fs : σ) (build : String) : Except JsError σ := do
  let content ← ops.readFileSync ("./src/js/builds/" ++ build) fs
  let content := replaceCRLF content
  ops.outputFileSync ("./dist/js/" ++ build) content fs

/-- The method `buildWrappers()`. -/
def buildWrappers {σ : Type} (ops : FsOps σ) (s : State σ) : Except JsError (State σ) := do
  let builds := ["jquery_wrapper.js"]
  let fs ← builds.foldlM (copyWrapper ops) s.fs
  pure { s with fs := fs }

/-- The method `bundleCSS(minify)`. -/
def bundleCSS {σ : Type} (ops : FsOps σ) (minify : Bool) (s : State σ) : Except JsError (State σ) := do
  let inputFiles ← ops.globbySync "./src/scss/**/tabulator*.scss" s.fs
  pure { s with bundles := s.bundles ++ inputFiles.map (cssDescriptor minify) }

/-- The method `bundleESM(minify)`. -/
def bundleESM {σ : Type} (minify : Bool) (s : State σ) : State σ :=
  { s with bundles := s.bundles ++ [esmDescriptor s.version minify] }

/-- The method `bundleUMD(minify)`. -/
def bundleUMD {σ : Type} (minify : Bool) (s : State σ) : State σ :=
  { s with bundles := s.bundles ++ [umdDescriptor s.version minify] }

/-- The method `watch(env)`. -/
def watch {σ : Type} (ops : FsOps σ) (env : String) (s : State σ) : Except JsError (State σ) := do
  let s := consoleLog ["Building Dev Package Bundles: ", env] s
  if env = "css" then bundleCSS ops false s
  else if env = "esm" then pure (bundleESM false s)
  else if env = "umd" then pure (bundleUMD false s)
  else if env = "wrappers" then buildWrappers ops s
  else do
    let s ← bundleCSS ops false s
    pure (bundleESM false s)

/-- The method `build()`. -/
def build {σ : Type} (ops : FsOps σ) (s : State σ) : Except JsError (State σ) := do
  let s := consoleLog ["Clearing Dist Files"] s
  let s ← clearDist ops s
  let s := consoleLog ["Building Wrappers"] s
  let s ← buildWrappers ops s
  let s := consoleLog ["Building Production Package Bundles"] s
  let s ← bundleCSS ops false s
  let s ← bundleCSS ops true s
  let s := bundleESM false s
  let s := bundleESM true s
  let s := bundleUMD false s
  let s := bundleUMD true s
  pure s

/-- The method `bundle()`: the returned array `this.bundles`, with the final state.
The test `if(this.env)` is one of truthiness: an absent `env` and the empty
string both take the `else` branch. -/
def bundle {σ : Type} (ops : FsOps σ) (s : State σ) : Except JsError (List Descriptor × State σ) := do
  let s ←
    (match s.env with
     | none => build ops s
     | some env => if env ≠ "" then watch ops env s else build ops s)
  pure (s.bundles, s)

/-! ## A concrete file system

An instance of the external operations, used to run the methods on explicit
inputs: regular files as path/content pairs, directories implicit. -/

/-- A file system holding regular files only. -/
abbrev Files := List (String × String)

/-- Match one path segment against a segment pattern in which `*` stands for any
run of characters. -/
def wildcardMatch : List Char → List Char → Bool
  | [], text => text.isEmpty
  | p :: ps, text =>
    if p = '*' then text.tails.any (fun rest => wildcardMatch ps rest)
    else
      match text with
      | [] => false
      | t :: ts => p = t && wildcardMatch ps ts

/-- Match the segments of a path against the segments of a glob pattern in which
`**` stands for any run of directories. -/
def globMatch : List (List Char) → List (List Char) → Bool
  | [], segments => segments.isEmpty
  | p :: ps, segments =>
    if p = ['*', '*'] then segments.tails.any (fun rest => globMatch ps rest)
    else
      match segments with
      | [] => false
      | seg :: segs => wildcardMatch p seg && globMatch ps segs

/-- The in-memory operations: `emptyDirSync` removes every file below the
directory, `readFileSync` throws when the file is missing, `outputFileSync`
creates or overwrites the file, `globbySync` lists the matching paths in
file-system order. -/
def memoryFs : FsOps Files where
  emptyDirSync dir files :=
    Except.ok (files.filter (fun entry => !((dir ++ "/").data.isPrefixOf entry.1.data)))
  readFileSync path files :=
    match files.lookup path with
    | some content => Except.ok content
    | none => Except.error (JsError.library ("ENOENT: no such file or directory, open " ++ path))
  outputFileSync path content files :=
    Except.ok (files.filter (fun entry => entry.1 ≠ path) ++ [(path, content)])
  globbySync pattern files :=
    Except.ok ((files.map Prod.fst).filter
      (fun path => globMatch (splitChars '/' pattern.data) (splitChars '/' path.data)))

/-- A small source tree: the wrapper (with Windows line endings), one stylesheet
entry, one stylesheet partial and a stale output file. -/
def sampleFiles : Files :=
  [ ("./src/js/builds/jquery_wrapper.js", "a\r\nb"),
    ("./src/scss/tabulator.scss", "x"),
    ("./src/scss/themes/_vars.scss", "y"),
    ("./dist/js/old.js", "z") ]

/-! ## The methods with the world kept when a call throws

A thrown error does not undo what was done before it.  To speak about the file
system, the collection and the console at the moment of a failure, the fallible
methods are given a second time, as functions that return the thrown error (if
any) together with the state reached.  The two mutating library calls return
the file system they leave behind also when they throw. -/

/-- The four library functions, the mutating ones with the file system they leave
behind whether they return or throw. -/
structure FsEffects (σ : Type) where
  emptyDirSync : String → σ → Except JsError Unit × σ
  readFileSync : String → σ → Except JsError String
  outputFileSync : String → String → σ → Except JsError Unit × σ
  globbySync : String → σ → Except JsError (List String)

/-- The same library functions seen through their outcome alone: the file system
left by a call that throws is forgotten. -/
def FsEffects.toOps {σ : Type} (fx : FsEffects σ) : FsOps σ where
  emptyDirSync dir fs :=
    match fx.emptyDirSync dir fs with
    | (Except.ok _, fs') => Except.ok fs'
    | (Except.error e, _) => Except.error e
  readFileSync := fx.readFileSync
  outputFileSync path content fs :=
    match fx.outputFileSync path content fs with
    | (Except.ok _, fs') => Except.ok fs'
    | (Except.error e, _) => Except.error e
  globbySync := fx.globbySync

/-- The end of a method call: the error it threw, if any, and the state reached. -/
abbrev Outcome (σ : Type) := Option JsError × State σ

/-- Statement sequencing: the next statement runs on the state reached, unless an
error was thrown, which ends the method there. -/
def Outcome.andThen {σ : Type} (first : Outcome σ) (next : State σ → Outcome σ) : Outcome σ :=
  match first with
  | (none, s) => next s
  | (some e, s) => (some e, s)

/-- The outcome with the state dropped when an error was thrown. -/
def Outcome.toExcept {σ : Type} (outcome : Outcome σ) : Except JsError (State σ) :=
  match outcome with
  | (none, s) => Except.ok s
  | (some e, _) => Except.error e

namespace World

/-- The method `clearDist()`. -/
def clearDist {σ : Type} (fx : FsEffects σ) (s : State σ) : Outcome σ :=
  match fx.emptyDirSync "./dist" s.fs with
  | (Except.ok _, fs) => (none, { s with fs := fs })
  | (Except.error e, fs) => (some e, { s with fs := fs })

/-- The callback of `builds.forEach` in `buildWrappers()`, for one file name. -/
def copyWrapper {σ : Type} (fx : FsEffects σ) (build : String) (s : State σ) : Outcome σ :=
  match fx.readFileSync ("./src/js/builds/" ++ build) s.fs with
  | Except.error e => (some e, s)
  | Except.ok content =>
    let content := replaceCRLF content
    match fx.outputFileSync ("./dist/js/" ++ build) content s.fs with
    | (Except.ok _, fs) => (none, { s with fs := fs })
    | (Except.error e, fs) => (some e, { s with fs := fs })

/-- The method `buildWrappers()`. -/
def buildWrappers {σ : Type} (fx : FsEffects σ) (s : State σ) : Outcome σ :=
  let builds := ["jquery_wrapper.js"]
  builds.foldl (fun outcome build => outcome.andThen (copyWrapper fx build)) (none, s)

/-- The method `bundleCSS(minify)`. -/
def bundleCSS {σ : Type} (fx : FsEffects σ) (minify : Bool) (s : State σ) : Outcome σ :=
  match fx.globbySync "./src/scss/**/tabulator*.scss" s.fs with
  | Except.error e => (some e, s)
  | Except.ok inputFiles =>
    (none, { s with bundles := s.bundles ++ inputFiles.map (cssDescriptor minify) })

/-- The method `watch(env)`. -/
def watch {σ : Type} (fx : FsEffects σ) (env : String) (s : State σ) : Outcome σ :=
  let s := consoleLog ["Building Dev Package Bundles: ", env] s
  if env = "css" then bundleCSS fx false s
  else if env = "esm" then (none, bundleESM false s)
  else if env = "umd" then (none, bundleUMD false s)
  else if env = "wrappers" then buildWrappers fx s
  else (bundleCSS fx false s).andThen (fun s => (none, bundleESM false s))

/-- The method `build()`. -/
def build {σ : Type} (fx : FsEffects σ) (s : State σ) : Outcome σ :=
  (clearDist fx (consoleLog ["Clearing Dist Files"] s)).andThen fun s =>
  (buildWrappers fx (consoleLog ["Building Wrappers"] s)).andThen fun s =>
  (bundleCSS fx false (consoleLog ["Building Production Package Bundles"] s)).andThen fun s =>
  (bundleCSS fx true s).andThen fun s =>
  (none, bundleUMD true (bundleUMD false (bundleESM true (bundleESM false s))))

/-- The method `bundle()`: the returned array or the thrown error, and the state
reached either way. -/
def bundle {σ : Type} (fx : FsEffects σ) (s : State σ) :
    Except JsError (List Descriptor) × State σ :=
  let outcome :=
    match s.env with
    | none => build fx s
    | some env => if env ≠ "" then watch fx env s else build fx s
  match outcome with
  | (none, s') => (Except.ok s'.bundles, s')
  | (some e, s') => (Except.error e, s')

end World

/-- The in-memory library functions as effects; none of the mutating ones throws. -/
def memoryEffects : FsEffects Files where
  emptyDirSync dir files :=
    (Except.ok (), files.filter (fun entry => !((dir ++ "/").data.isPrefixOf entry.1.data)))
  readFileSync := memoryFs.readFileSync
  outputFileSync path content files :=
    (Except.ok (), files.filter (fun entry => entry.1 ≠ path) ++ [(path, content)])
  globbySync := memoryFs.globbySync

/-- The in-memory library functions over an output directory that cannot be
emptied: `emptyDirSync` throws and leaves the files as they are. -/
def lockedEffects : FsEffects Files :=
  { memoryEffects with
    emptyDirSync := fun dir files =>
      (Except.error (JsError.library ("EACCES: permission denied, unlink " ++ dir)), files) }

/-! ## Vocabulary of the statements -/

/-- A descriptor minifies when its pipeline holds the `terser` step or a `postcss`
step with `minimize` switched on. -/
def Descriptor.minifies (d : Descriptor) : Bool :=
  d.plugins.any (fun step =>
    match step with
    | some Plugin.terser => true
    | some (Plugin.postcss options) => options.minimize
    | _ => false)

/-- The pipeline ends with the eol-plugin and holds it nowhere else. -/
def Descriptor.eolTerminal (d : Descriptor) : Prop :=
  d.plugins ≠ [] ∧ d.plugins.getLast? = some (some _getEOLPlugin) ∧
    d.plugins.dropLast.count (some _getEOLPlugin) = 0

/-- A descriptor as one of the three builders makes it, for the banner `version`. -/
def Descriptor.built (version : String) (d : Descriptor) : Prop :=
  (∃ minify inputFile, d = cssDescriptor minify inputFile) ∨
    (∃ minify, d = esmDescriptor version minify) ∨
    (∃ minify, d = umdDescriptor version minify)

/-- Every descriptor held by the state was made by a builder for the state's banner. -/
def State.allBuilt {σ : Type} (s : State σ) : Prop :=
  ∀ d ∈ s.bundles, d.built s.version

/-- The four mode names that `watch` tells apart. -/
def namedModes : List String := ["css", "esm", "umd", "wrappers"]

/-- The stylesheet glob of `bundleCSS`. -/
abbrev stylesheetGlob : String := "./src/scss/**/tabulator*.scss"

/-- The source path of the wrapper read by `buildWrappers`. -/
abbrev wrapperSource : String := "./src/js/builds/jquery_wrapper.js"

/-- The output path of the wrapper written by `buildWrappers`. -/
abbrev wrapperTarget : String := "./dist/js/jquery_wrapper.js"

/-- The two-character sequence matched by the regular expression `/\r\n/`. -/
abbrev crlf : List Char := ['\r', '\n']

/-- A carriage-return directly followed by a CRLF sequence. -/
abbrev crcrlf : List Char := ['\r', '\r', '\n']

/-- An output bundle with one chunk and one binary asset. -/
def sampleBundle : List (String × Artifact) :=
  [ ("tabulator.js", { type := "chunk", code := some "a\r\nb\r\nc", source := Source.undefined, rest := [] }),
    ("logo.png", { type := "asset", code := none, source := Source.binary [13, 10], rest := [] }) ]

/-- An output bundle whose chunk holds a carriage-return in front of a CRLF. -/
def strayReturnBundle : List (String × Artifact) :=
  [ ("tabulator.js", { type := "chunk", code := some "\r\r\n", source := Source.undefined, rest := [] }) ]

/-- The source extension that `bundleCSS` replaces. -/
abbrev scss : List Char := ['.', 's', 'c', 's', 's']

/-- The file paths an `output` property names. -/
def Output.files (output : Output) : List String :=
  match output with
  | Output.single spec => [spec.file]
  | Output.many specs => specs.map (fun spec => spec.file)

/-- The text ends with the given ending. -/
def endsWith (text ending : String) : Prop := ending.data <:+ text.data

/-- A source tree with two stylesheet entries of the same file name in different
directories. -/
def nestedFiles : Files :=
  [ ("./src/scss/tabulator.scss", "x"),
    ("./src/scss/themes/tabulator.scss", "y") ]

/-- A source tree without the wrapper source. -/
def noWrapperFiles : Files :=
  [ ("./src/scss/tabulator.scss", "x") ]

/-- The path is one that `globbySync` may discover for the stylesheet glob. -/
def matchesStylesheetGlob (path : String) : Bool :=
  globMatch (splitChars '/' stylesheetGlob.data) (splitChars '/' path.data)

/-- The banner objects of the license steps of a descriptor, in pipeline order. -/
def Descriptor.banners (d : Descriptor) : List Banner :=
  d.plugins.filterMap (fun step =>
    match step with
    | some (Plugin.license banner) => some banner
    | _ => none)

/-- Modelled on the spec's words, "the .min infix inserted before the extension":
the characters of a file path with ".min" put in front of its extension, the
part from the last dot on.  A path without a dot is left as it is. -/
def insertMinChars : List Char → List Char
  | [] => []
  | c :: cs =>
    if c = '.' ∧ '.' ∉ cs then ['.', 'm', 'i', 'n'] ++ c :: cs
    else c :: insertMinChars cs

/-- The file path with ".min" put in front of its extension. -/
def insertMin (file : String) : String := ⟨insertMinChars file.data⟩

/-- The `output` property with every file path rewritten, all other properties kept. -/
def Output.mapFiles (f : String → String) (output : Output) : Output :=
  match output with
  | Output.single spec => Output.single { spec with file := f spec.file }
  | Output.many specs => Output.many (specs.map (fun spec => { spec with file := f spec.file }))

/-! # Theorems -/

/-! ## Line-ending replacement: supporting lemmas -/

theorem crlf_prefix_cons_cons (c d : Char) (rest : List Char) :
    crlf <+: c :: d :: rest ↔ c = '\r' ∧ d = '\n' := by
  simp [crlf, List.cons_prefix_cons, eq_comm]

theorem crlf_infix_cons_cons (c d : Char) (rest : List Char) :
    crlf <:+: c :: d :: rest ↔ (c = '\r' ∧ d = '\n') ∨ crlf <:+: d :: rest := by
  rw [List.infix_cons_iff, crlf_prefix_cons_cons]

theorem crlf_not_infix_singleton (c : Char) : ¬ crlf <:+: [c] := by
  intro h
  have := h.length_le
  simp [crlf] at this

theorem replaceCRLFChars_hit (rest : List Char) :
    replaceCRLFChars ('\r' :: '\n' :: rest) = '\n' :: replaceCRLFChars rest := by
  simp [replaceCRLFChars]

theorem replaceCRLFChars_miss (c d : Char) (rest : List Char) (h : ¬ (c = '\r' ∧ d = '\n')) :
    replaceCRLFChars (c :: d :: rest) = c :: replaceCRLFChars (d :: rest) := by
  simp [replaceCRLFChars, h]

/-- Content without a CRLF sequence is copied unchanged. -/
theorem replaceCRLFChars_of_crlf_free (l : List Char) (h : ¬ crlf <:+: l) :
    replaceCRLFChars l = l := by
  induction l using replaceCRLFChars.induct with
  | case1 => rfl
  | case2 c d rest hcd ih =>
    exact absurd ((crlf_infix_cons_cons c d rest).2 (Or.inl hcd)) h
  | case3 c d rest hcd ih =>
    rw [replaceCRLFChars_miss c d rest hcd, ih]
    intro h2
    exact h ((crlf_infix_cons_cons c d rest).2 (Or.inr h2))
  | case4 c => rfl

/-- The replacement never makes the content longer. -/
theorem replaceCRLFChars_length_le (l : List Char) :
    (replaceCRLFChars l).length ≤ l.length := by
  induction l using replaceCRLFChars.induct with
  | case1 => simp [replaceCRLFChars]
  | case2 c d rest hcd ih =>
    obtain ⟨rfl, rfl⟩ := hcd
    rw [replaceCRLFChars_hit]
    simp only [List.length_cons]
    omega
  | case3 c d rest hcd ih =>
    rw [replaceCRLFChars_miss c d rest hcd]
    simp only [List.length_cons] at ih ⊢
    omega
  | case4 c => simp [replaceCRLFChars]

/-- Content with a CRLF sequence gets strictly shorter. -/
theorem replaceCRLFChars_length_lt (l : List Char) (h : crlf <:+: l) :
    (replaceCRLFChars l).length < l.length := by
  induction l using replaceCRLFChars.induct with
  | case1 => simp [crlf] at h
  | case2 c d rest hcd ih =>
    obtain ⟨rfl, rfl⟩ := hcd
    rw [replaceCRLFChars_hit]
    have := replaceCRLFChars_length_le rest
    simp only [List.length_cons]
    omega
  | case3 c d rest hcd ih =>
    rw [replaceCRLFChars_miss c d rest hcd]
    rcases (crlf_infix_cons_cons c d rest).1 h with h1 | h1
    · exact absurd h1 hcd
    · have := ih h1
      simp only [List.length_cons] at this ⊢
      omega
  | case4 c => exact absurd h (crlf_not_infix_singleton c)

/-- The replacement is the identity exactly on content without a CRLF sequence. -/
theorem replaceCRLFChars_eq_self_iff (l : List Char) :
    replaceCRLFChars l = l ↔ ¬ crlf <:+: l := by
  constructor
  · intro heq h
    have := replaceCRLFChars_length_lt l h
    rw [heq] at this
    exact Nat.lt_irrefl _ this
  · exact replaceCRLFChars_of_crlf_free l


theorem crcrlf_prefix_iff (c d : Char) (rest : List Char) :
    crcrlf <+: c :: d :: rest ↔ c = '\r' ∧ d = '\r' ∧ ['\n'] <+: rest := by
  simp [crcrlf, List.cons_prefix_cons, eq_comm]

theorem crcrlf_infix_cons_cons (c d : Char) (rest : List Char) :
    crcrlf <:+: c :: d :: rest ↔
      (c = '\r' ∧ d = '\r' ∧ ['\n'] <+: rest) ∨ crcrlf <:+: d :: rest := by
  rw [List.infix_cons_iff, crcrlf_prefix_iff]

theorem crcrlf_not_infix_singleton (c : Char) : ¬ crcrlf <:+: [c] := by
  intro h
  have := h.length_le
  simp [crcrlf] at this

/-- The first character of the result is a line-feed only if the content starts
with a line-feed or with a CRLF sequence. -/
theorem replaceCRLFChars_head_lf (l out : List Char) (h : replaceCRLFChars l = '\n' :: out) :
    (∃ rest, l = '\n' :: rest) ∨ (∃ rest, l = '\r' :: '\n' :: rest) := by
  match l with
  | [] => simp [replaceCRLFChars] at h
  | [c] =>
    simp [replaceCRLFChars] at h
    exact Or.inl ⟨[], by rw [h.1]⟩
  | c :: d :: rest =>
    by_cases hcd : c = '\r' ∧ d = '\n'
    · obtain ⟨rfl, rfl⟩ := hcd
      exact Or.inr ⟨rest, rfl⟩
    · rw [replaceCRLFChars_miss c d rest hcd] at h
      simp at h
      exact Or.inl ⟨d :: rest, by rw [h.1]⟩

/-- Content without CR-CRLF is turned into content without CRLF. -/
theorem replaceCRLFChars_no_crlf (l : List Char) (h : ¬ crcrlf <:+: l) :
    ¬ crlf <:+: replaceCRLFChars l := by
  induction l using replaceCRLFChars.induct with
  | case1 => simp [replaceCRLFChars, crlf]
  | case2 c d rest hcd ih =>
    obtain ⟨rfl, rfl⟩ := hcd
    rw [replaceCRLFChars_hit]
    have hrest : ¬ crcrlf <:+: rest := fun h2 =>
      h (List.infix_cons (List.infix_cons h2))
    intro h2
    rcases List.infix_cons_iff.1 h2 with h3 | h3
    · simp [crlf, List.cons_prefix_cons] at h3
    · exact ih hrest h3
  | case3 c d rest hcd ih =>
    rw [replaceCRLFChars_miss c d rest hcd]
    have htail : ¬ crcrlf <:+: d :: rest := fun h2 => h (List.infix_cons h2)
    intro h2
    rcases List.infix_cons_iff.1 h2 with h3 | h3
    · -- the kept character is a CR and the result continues with a line-feed
      cases hout : replaceCRLFChars (d :: rest) with
      | nil => rw [hout] at h3; simp [crlf] at h3
      | cons e out =>
        rw [hout] at h3
        simp only [crlf, List.cons_prefix_cons, List.nil_prefix, and_true] at h3
        obtain ⟨hc, he⟩ := h3
        subst hc he
        rcases replaceCRLFChars_head_lf (d :: rest) out hout with ⟨r, hr⟩ | ⟨r, hr⟩
        · simp only [List.cons.injEq] at hr
          exact hcd ⟨rfl, hr.1⟩
        · simp only [List.cons.injEq] at hr
          obtain ⟨hd, hr2⟩ := hr
          apply h
          rw [hd, hr2]
          exact ⟨[], r, rfl⟩
    · exact ih htail h3
  | case4 c =>
    simp only [replaceCRLFChars]
    exact crlf_not_infix_singleton c

/-- Content with CR-CRLF is turned into content that still has a CRLF. -/
theorem replaceCRLFChars_crlf_of_crcrlf (l : List Char) (h : crcrlf <:+: l) :
    crlf <:+: replaceCRLFChars l := by
  induction l using replaceCRLFChars.induct with
  | case1 => simp [crcrlf] at h
  | case2 c d rest hcd ih =>
    obtain ⟨rfl, rfl⟩ := hcd
    rw [replaceCRLFChars_hit]
    rcases (crcrlf_infix_cons_cons _ _ rest).1 h with h1 | h1
    · exact absurd h1.2.1 (by decide)
    · rcases List.infix_cons_iff.1 h1 with h2 | h2
      · simp [crcrlf, List.cons_prefix_cons] at h2
      · exact List.infix_cons (ih h2)
  | case3 c d rest hcd ih =>
    rw [replaceCRLFChars_miss c d rest hcd]
    rcases (crcrlf_infix_cons_cons c d rest).1 h with h1 | h1
    · obtain ⟨rfl, rfl, hn⟩ := h1
      obtain ⟨r, rfl⟩ := hn
      simp only [List.singleton_append]
      rw [replaceCRLFChars_hit]
      exact ⟨[], replaceCRLFChars r, rfl⟩
    · exact List.infix_cons (ih h1)
  | case4 c => exact absurd h (crcrlf_not_infix_singleton c)

/-- Replacing twice equals replacing once exactly on content without CR-CRLF. -/
theorem replaceCRLFChars_twice_iff (l : List Char) :
    replaceCRLFChars (replaceCRLFChars l) = replaceCRLFChars l ↔ ¬ crcrlf <:+: l := by
  rw [replaceCRLFChars_eq_self_iff]
  constructor
  · intro h1 h2
    exact h1 (replaceCRLFChars_crlf_of_crcrlf l h2)
  · exact replaceCRLFChars_no_crlf l

/-- A CRLF-free piece followed by a CRLF: the piece is copied and the CRLF becomes
a line-feed. -/
theorem replaceCRLFChars_piece (a rest : List Char) (h : ¬ crlf <:+: a) :
    replaceCRLFChars (a ++ '\r' :: '\n' :: rest) = a ++ '\n' :: replaceCRLFChars rest := by
  induction a with
  | nil => exact replaceCRLFChars_hit rest
  | cons c a ih =>
    have hta : ¬ crlf <:+: a := fun h2 => h (List.infix_cons h2)
    cases a with
    | nil =>
      simp only [List.singleton_append, List.nil_append] at ih ⊢
      rw [replaceCRLFChars_miss c '\r' _ (by simp), ih hta]
    | cons d a =>
      have hcd : ¬ (c = '\r' ∧ d = '\n') := fun h2 =>
        h ((crlf_infix_cons_cons c d a).2 (Or.inl h2))
      simp only [List.cons_append] at ih ⊢
      rw [replaceCRLFChars_miss c d _ hcd, ih hta]

/-- Joining CRLF-free pieces with CRLF and replacing gives the same pieces joined
with a line-feed. -/
theorem replaceCRLFChars_intercalate (pieces : List (List Char))
    (h : ∀ piece ∈ pieces, ¬ crlf <:+: piece) :
    replaceCRLFChars (crlf.intercalate pieces) = ['\n'].intercalate pieces := by
  induction pieces with
  | nil => rfl
  | cons a pieces ih =>
    cases pieces with
    | nil =>
      simp only [List.intercalate, List.intersperse, List.flatten, List.append_nil]
      exact replaceCRLFChars_of_crlf_free a (h a (List.mem_singleton.2 rfl))
    | cons b pieces =>
      have ih2 := ih (fun piece hp => h piece (List.mem_cons_of_mem a hp))
      have ha := h a (List.mem_cons_self a _)
      simp only [List.intercalate, List.intersperse, List.flatten] at ih2 ⊢
      simp only [crlf, List.cons_append, List.nil_append] at ih2 ⊢
      rw [replaceCRLFChars_piece a _ ha, ih2]


/-! ## The end-of-line hook -/

theorem replaceCRLF_of_crlf_free (c : String) (h : ¬ crlf <:+: c.data) : replaceCRLF c = c := by
  unfold replaceCRLF
  rw [replaceCRLFChars_of_crlf_free c.data h]

theorem replaceCRLF_twice_iff (c : String) :
    replaceCRLF (replaceCRLF c) = replaceCRLF c ↔ ¬ crcrlf <:+: c.data := by
  unfold replaceCRLF
  rw [← replaceCRLFChars_twice_iff c.data]
  constructor
  · intro h
    exact congrArg String.data h
  · intro h
    exact congrArg String.mk h

theorem replaceCRLF_empty : replaceCRLF "" = "" := rfl

/-- On an artifact of type asset or chunk the hook rewrites `code` and a text
`source` with the replacement; the emptiness tests of the source change nothing
because the replacement maps the empty string to itself. -/
theorem normalizeArtifact_of_type (a : Artifact) (h : a.type = "asset" ∨ a.type = "chunk") :
    normalizeArtifact a =
      { a with
        code := a.code.map replaceCRLF
        source :=
          match a.source with
          | Source.text c => Source.text (replaceCRLF c)
          | other => other } := by
  obtain ⟨type, code, source, rest⟩ := a
  simp only [normalizeArtifact, if_pos h]
  congr 1
  · cases code with
    | none => rfl
    | some c =>
      by_cases hc : c = ""
      · subst hc; rfl
      · simp [hc]
  · cases source with
    | undefined => rfl
    | binary b => rfl
    | text c =>
      by_cases hc : c = ""
      · subst hc; rfl
      · simp [hc]

theorem normalizeArtifact_of_not_type (a : Artifact) (h : ¬ (a.type = "asset" ∨ a.type = "chunk")) :
    normalizeArtifact a = a := by
  simp only [normalizeArtifact, if_neg h]

theorem normalizeArtifact_type (a : Artifact) : (normalizeArtifact a).type = a.type := by
  by_cases h : a.type = "asset" ∨ a.type = "chunk"
  · rw [normalizeArtifact_of_type a h]
  · rw [normalizeArtifact_of_not_type a h]

/-- For one artifact: the loop body applied twice equals the loop body applied
once exactly when no rewritten content holds a CR-CRLF. -/
theorem normalizeArtifact_twice_iff (a : Artifact) :
    normalizeArtifact (normalizeArtifact a) = normalizeArtifact a ↔
      ((a.type = "asset" ∨ a.type = "chunk") →
        (∀ c, a.code = some c → ¬ crcrlf <:+: c.data) ∧
        (∀ c, a.source = Source.text c → ¬ crcrlf <:+: c.data)) := by
  by_cases h : a.type = "asset" ∨ a.type = "chunk"
  · have h2 : (normalizeArtifact a).type = "asset" ∨ (normalizeArtifact a).type = "chunk" := by
      rw [normalizeArtifact_type]; exact h
    rw [normalizeArtifact_of_type _ h2, normalizeArtifact_of_type a h]
    obtain ⟨type, code, source, rest⟩ := a
    simp only [Artifact.mk.injEq, true_and, and_true, h, true_implies]
    apply and_congr
    · cases code with
      | none => simp
      | some c => simp [replaceCRLF_twice_iff]
    · cases source with
      | undefined => simp
      | binary b => simp
      | text c => simp [replaceCRLF_twice_iff]
  · rw [normalizeArtifact_of_not_type a h, normalizeArtifact_of_not_type a h]
    simp [h]


theorem generateBundle_getElem? (bundle : List (String × Artifact)) (i : Nat) :
    (generateBundle bundle)[i]? =
      (bundle[i]?).map (fun entry => (entry.1, normalizeArtifact entry.2)) := by
  simp [generateBundle, List.getElem?_map]

/-- Claim C6, counterexample: the hook is not idempotent.  On a chunk whose code is
a carriage-return followed by a CRLF the first run leaves a CRLF behind, which
the second run rewrites again. -/
theorem generateBundle_not_idempotent :
    generateBundle (generateBundle strayReturnBundle) ≠ generateBundle strayReturnBundle := by
  decide

/-- Claim C6, as amended: applying the `generateBundle` hook of the eol-plugin twice
yields the same artifact set as applying it once exactly when no `code` and no
text `source` of an artifact of type asset or chunk contains a carriage-return
directly followed by a CRLF sequence. -/
theorem generateBundle_twice_eq_once_iff (bundle : List (String × Artifact)) :
    generateBundle (generateBundle bundle) = generateBundle bundle ↔
      ∀ entry ∈ bundle, (entry.2.type = "asset" ∨ entry.2.type = "chunk") →
        (∀ c, entry.2.code = some c → ¬ crcrlf <:+: c.data) ∧
        (∀ c, entry.2.source = Source.text c → ¬ crcrlf <:+: c.data) := by
  induction bundle with
  | nil => simp [generateBundle]
  | cons entry bundle ih =>
    simp only [generateBundle, List.map_cons, List.cons.injEq, Prod.mk.injEq, true_and,
      List.mem_cons, forall_eq_or_imp] at ih ⊢
    rw [ih, normalizeArtifact_twice_iff]

/-- Claim C6, witness: the sample bundle holds no CR-CRLF, so the hook applied twice
equals the hook applied once on it. -/
theorem generateBundle_twice_eq_once_iff_witness :
    generateBundle (generateBundle sampleBundle) = generateBundle sampleBundle :=
  (generateBundle_twice_eq_once_iff sampleBundle).2 (by
    intro entry hmem _
    simp only [sampleBundle, List.mem_cons, List.mem_singleton, List.not_mem_nil, or_false] at hmem
    rcases hmem with rfl | rfl
    · constructor
      · intro c hc
        simp only [Option.some.injEq] at hc
        subst hc
        decide
      · intro c hc
        simp at hc
    · constructor
      · intro c hc
        simp at hc
      · intro c hc
        simp at hc)

/-- Claim C7: for every artifact of type asset or chunk, after the `generateBundle`
hook the entry keeps its file name, its `code` (when a string) and its `source`
(when a string) are the original content with the CRLF replacement applied; the
replacement turns CRLF-free pieces joined by CRLF into the same pieces joined by
a single line-feed (every CRLF replaced, every other character kept in order),
maps "a\r\nb\r\nc" to "a\nb\nc", and returns content without CRLF unchanged. -/
theorem generateBundle_result (bundle : List (String × Artifact)) (i : Nat)
    (fileName : String) (a : Artifact)
    (hentry : bundle[i]? = some (fileName, a))
    (htype : a.type = "asset" ∨ a.type = "chunk") :
    ∃ a', (generateBundle bundle)[i]? = some (fileName, a') ∧
      (∀ c, a.code = some c → a'.code = some (replaceCRLF c)) ∧
      (∀ c, a.source = Source.text c → a'.source = Source.text (replaceCRLF c)) ∧
      (∀ pieces : List (List Char), (∀ piece ∈ pieces, ¬ crlf <:+: piece) →
        replaceCRLF ⟨crlf.intercalate pieces⟩ = ⟨['\n'].intercalate pieces⟩) ∧
      replaceCRLF "a\r\nb\r\nc" = "a\nb\nc" ∧
      (∀ c : String, ¬ crlf <:+: c.data → replaceCRLF c = c) := by
  refine ⟨normalizeArtifact a, ?_, ?_, ?_, ?_, ?_, ?_⟩
  · rw [generateBundle_getElem?, hentry]
    rfl
  · intro c hc
    rw [normalizeArtifact_of_type a htype]
    simp [hc]
  · intro c hc
    rw [normalizeArtifact_of_type a htype]
    simp [hc]
  · intro pieces hp
    unfold replaceCRLF
    rw [replaceCRLFChars_intercalate pieces hp]
  · rfl
  · exact replaceCRLF_of_crlf_free

/-- Claim C7, witness: the chunk of the sample bundle, whose code is "a\r\nb\r\nc",
comes out of the hook with code "a\nb\nc". -/
theorem generateBundle_result_witness :
    ∃ a', (generateBundle sampleBundle)[0]? = some ("tabulator.js", a') ∧
      a'.code = some "a\nb\nc" := by
  obtain ⟨a', h1, h2, _⟩ := generateBundle_result sampleBundle 0 "tabulator.js"
    { type := "chunk", code := some "a\r\nb\r\nc", source := Source.undefined, rest := [] }
    rfl (Or.inr rfl)
  exact ⟨a', h1, h2 "a\r\nb\r\nc" rfl⟩


/-! ## Warning handlers -/

/-- The part of the allowlist that works as an exact match: a code that is not the
name of a property of `Object.prototype` is suppressed exactly when it is
`FILE_NAME_CONFLICT`; otherwise the default handler is called once with the warning. -/
theorem suppressUnnecessaryWarnings_plain_code (warn : WarningEvent)
    (hproto : warn.code ≠ "__proto__") (hmethod : warn.code ∉ objectPrototypeMethods) :
    _suppressUnnecessaryWarnings warn =
      Except.ok (if warn.code = "FILE_NAME_CONFLICT" then [] else [warn]) := by
  unfold _suppressUnnecessaryWarnings ignoredCodes
  by_cases h : warn.code = "FILE_NAME_CONFLICT"
  · simp only [h, if_true]
    rfl
  · simp only [h, hproto, hmethod, if_false]
    rfl

/-- The helper answers true exactly for an importer that contains one of the two
file names. -/
theorem suppressCircularDependencyWarnings_iff (warn : WarningEvent) :
    _suppressCircularDependencyWarnings warn = true ↔
      ("Column.js".data <:+: warn.importer.data ∨ "Tabulator.js".data <:+: warn.importer.data) := by
  simp [_suppressCircularDependencyWarnings, includes]

/-- Claim C4, failing input: on every ESM and UMD descriptor the `onwarn` handler
forwards the warning with code CIRCULAR_DEPENDENCY and importer "src/Column.js"
to the default handler, although `_suppressCircularDependencyWarnings` answers
true for it: the helper is never called by the handler. -/
theorem onwarn_forwards_circular_dependency (version : String) (minify : Bool) :
    (esmDescriptor version minify).onwarn.call ⟨"CIRCULAR_DEPENDENCY", "src/Column.js", "m"⟩ =
        Except.ok [⟨"CIRCULAR_DEPENDENCY", "src/Column.js", "m"⟩] ∧
      (umdDescriptor version minify).onwarn.call ⟨"CIRCULAR_DEPENDENCY", "src/Column.js", "m"⟩ =
        Except.ok [⟨"CIRCULAR_DEPENDENCY", "src/Column.js", "m"⟩] ∧
      _suppressCircularDependencyWarnings ⟨"CIRCULAR_DEPENDENCY", "src/Column.js", "m"⟩ = true :=
  ⟨rfl, rfl, by decide⟩

/-- Claim C5, failing input: a warning whose code is the name of a property that the
table inherits from `Object.prototype` is not forwarded.  With code "toString",
"constructor" or "__proto__" the lookup is truthy and the warning is dropped;
with code "valueOf" the inherited method throws and the handler is not reached. -/
theorem suppressUnnecessaryWarnings_inherited_code :
    _suppressUnnecessaryWarnings ⟨"toString", "x", "m"⟩ = Except.ok [] ∧
      _suppressUnnecessaryWarnings ⟨"constructor", "x", "m"⟩ = Except.ok [] ∧
      _suppressUnnecessaryWarnings ⟨"__proto__", "x", "m"⟩ = Except.ok [] ∧
      _suppressUnnecessaryWarnings ⟨"valueOf", "x", "m"⟩ = Except.error JsError.typeError :=
  ⟨rfl, rfl, rfl, rfl⟩

/-! ## Descriptors -/

/-- Claim C8, counterexample: with `minify` false the plugins list of the ESM
descriptor and of the UMD descriptor has four entries and the second one is the
`null` placeholder. -/
theorem plugins_hold_null_placeholder :
    (esmDescriptor (banner "6.3.0") false).plugins.length = 4 ∧
      (esmDescriptor (banner "6.3.0") false).plugins[1]? = some none ∧
      (umdDescriptor (banner "6.3.0") false).plugins.length = 4 ∧
      (umdDescriptor (banner "6.3.0") false).plugins[1]? = some none :=
  ⟨rfl, rfl, rfl, rfl⟩

/-- Claim C8, as amended: the plugins list of the ESM descriptor and of the UMD
descriptor always has four entries, module-resolution, then the minify step
when `minify` is true and a `null` placeholder when it is false, then
license-banner, then EOL normalization; once the `null` entries are dropped it
is the three steps without minify, respectively the four steps with it. -/
theorem plugins_with_placeholder (version : String) :
    (esmDescriptor version false).plugins =
        [some Plugin.nodeResolve, none,
         some (Plugin.license ⟨"none", version⟩), some _getEOLPlugin] ∧
      (esmDescriptor version true).plugins =
        [some Plugin.nodeResolve, some Plugin.terser,
         some (Plugin.license ⟨"none", version⟩), some _getEOLPlugin] ∧
      (umdDescriptor version false).plugins = (esmDescriptor version false).plugins ∧
      (umdDescriptor version true).plugins = (esmDescriptor version true).plugins ∧
      (esmDescriptor version false).plugins.reduceOption =
        [Plugin.nodeResolve, Plugin.license ⟨"none", version⟩, _getEOLPlugin] ∧
      (esmDescriptor version true).plugins.reduceOption =
        [Plugin.nodeResolve, Plugin.terser, Plugin.license ⟨"none", version⟩, _getEOLPlugin] ∧
      none ∉ (esmDescriptor version true).plugins :=
  ⟨rfl, rfl, rfl, rfl, rfl, rfl, by simp [esmDescriptor]⟩

/-- Claim C10: for both values of `minify`, `bundleESM` appends one descriptor whose
output is an array of exactly two output objects, both with format "esm",
exports "named" and sourcemap true, with files "dist/js/tabulator_esm" plus
".min" iff minifying plus ".js", respectively ".mjs"; the two objects are equal
in every field except the file. -/
theorem bundleESM_outputs {σ : Type} (minify : Bool) (s : State σ) :
    ∃ d js mjs,
      (bundleESM minify s).bundles = s.bundles ++ [d] ∧
      d.output = Output.many [js, mjs] ∧
      js.file = "dist/js/tabulator_esm" ++ (if minify then ".min" else "") ++ ".js" ∧
      mjs.file = "dist/js/tabulator_esm" ++ (if minify then ".min" else "") ++ ".mjs" ∧
      js.format = "esm" ∧ js.exports = some "named" ∧ js.sourcemap = some true ∧
      mjs = { js with file := mjs.file } ∧ js.file ≠ mjs.file := by
  refine ⟨esmDescriptor s.version minify, _, _, rfl, rfl, rfl, rfl, rfl, rfl, rfl, rfl, ?_⟩
  cases minify <;> decide


/-! ## The methods, step by step -/

theorem ok_bind {ε α β : Type} (a : α) (f : α → Except ε β) :
    (Except.ok a >>= f) = f a := rfl

theorem error_bind {ε α β : Type} (e : ε) (f : α → Except ε β) :
    (Except.error e >>= f) = Except.error e := rfl

theorem clearDist_ok {σ : Type} (ops : FsOps σ) (s : State σ) (fs : σ)
    (h : ops.emptyDirSync "./dist" s.fs = Except.ok fs) :
    clearDist ops s = Except.ok { s with fs := fs } := by
  simp only [clearDist, h, ok_bind]
  rfl

theorem buildWrappers_ok {σ : Type} (ops : FsOps σ) (s : State σ) (content : String) (fs : σ)
    (hread : ops.readFileSync wrapperSource s.fs = Except.ok content)
    (hwrite : ops.outputFileSync wrapperTarget (replaceCRLF content) s.fs = Except.ok fs) :
    buildWrappers ops s = Except.ok { s with fs := fs } := by
  have hr : ops.readFileSync ("./src/js/builds/" ++ "jquery_wrapper.js") s.fs = Except.ok content := hread
  have hw : ops.outputFileSync ("./dist/js/" ++ "jquery_wrapper.js") (replaceCRLF content) s.fs
      = Except.ok fs := hwrite
  simp only [buildWrappers, List.foldlM, copyWrapper, hr, hw, ok_bind]
  rfl

theorem bundleCSS_ok {σ : Type} (ops : FsOps σ) (minify : Bool) (s : State σ)
    (inputFiles : List String)
    (h : ops.globbySync stylesheetGlob s.fs = Except.ok inputFiles) :
    bundleCSS ops minify s =
      Except.ok { s with bundles := s.bundles ++ inputFiles.map (cssDescriptor minify) } := by
  simp only [bundleCSS, h, ok_bind]
  rfl

theorem except_cases {ε α : Type} (x : Except ε α) :
    (∃ e, x = Except.error e) ∨ (∃ a, x = Except.ok a) := by
  cases x with
  | error e => exact Or.inl ⟨e, rfl⟩
  | ok a => exact Or.inr ⟨a, rfl⟩

theorem clearDist_error {σ : Type} (ops : FsOps σ) (s : State σ) (e : JsError)
    (h : ops.emptyDirSync "./dist" s.fs = Except.error e) :
    clearDist ops s = Except.error e := by
  simp only [clearDist, h, error_bind]

theorem buildWrappers_read_error {σ : Type} (ops : FsOps σ) (s : State σ) (e : JsError)
    (hread : ops.readFileSync wrapperSource s.fs = Except.error e) :
    buildWrappers ops s = Except.error e := by
  have hr : ops.readFileSync ("./src/js/builds/" ++ "jquery_wrapper.js") s.fs
      = Except.error e := hread
  simp only [buildWrappers, List.foldlM, copyWrapper, hr, error_bind]

theorem buildWrappers_write_error {σ : Type} (ops : FsOps σ) (s : State σ) (content : String)
    (e : JsError)
    (hread : ops.readFileSync wrapperSource s.fs = Except.ok content)
    (hwrite : ops.outputFileSync wrapperTarget (replaceCRLF content) s.fs = Except.error e) :
    buildWrappers ops s = Except.error e := by
  have hr : ops.readFileSync ("./src/js/builds/" ++ "jquery_wrapper.js") s.fs
      = Except.ok content := hread
  have hw : ops.outputFileSync ("./dist/js/" ++ "jquery_wrapper.js") (replaceCRLF content) s.fs
      = Except.error e := hwrite
  simp only [buildWrappers, List.foldlM, copyWrapper, hr, hw, ok_bind, error_bind]

theorem bundleCSS_error {σ : Type} (ops : FsOps σ) (minify : Bool) (s : State σ) (e : JsError)
    (h : ops.globbySync stylesheetGlob s.fs = Except.error e) :
    bundleCSS ops minify s = Except.error e := by
  simp only [bundleCSS, h, error_bind]

/-- A successful `clearDist` changes the file system only. -/
theorem clearDist_inv {σ : Type} (ops : FsOps σ) (s s' : State σ)
    (h : clearDist ops s = Except.ok s') :
    ∃ fs, ops.emptyDirSync "./dist" s.fs = Except.ok fs ∧ s' = { s with fs := fs } := by
  rcases except_cases (ops.emptyDirSync "./dist" s.fs) with ⟨e, hc⟩ | ⟨fs, hc⟩
  · rw [clearDist_error ops s e hc] at h
    cases h
  · rw [clearDist_ok ops s fs hc] at h
    cases h
    exact ⟨fs, hc, rfl⟩

/-- A successful `buildWrappers` changes the file system only: it has read the
wrapper source and written the wrapper target. -/
theorem buildWrappers_inv {σ : Type} (ops : FsOps σ) (s s' : State σ)
    (h : buildWrappers ops s = Except.ok s') :
    ∃ content fs, ops.readFileSync wrapperSource s.fs = Except.ok content ∧
      ops.outputFileSync wrapperTarget (replaceCRLF content) s.fs = Except.ok fs ∧
      s' = { s with fs := fs } := by
  rcases except_cases (ops.readFileSync wrapperSource s.fs) with ⟨e, hr⟩ | ⟨content, hr⟩
  · rw [buildWrappers_read_error ops s e hr] at h
    cases h
  · rcases except_cases (ops.outputFileSync wrapperTarget (replaceCRLF content) s.fs)
      with ⟨e, hw⟩ | ⟨fs, hw⟩
    · rw [buildWrappers_write_error ops s content e hr hw] at h
      cases h
    · rw [buildWrappers_ok ops s content fs hr hw] at h
      cases h
      exact ⟨content, fs, hr, hw, rfl⟩

/-- A successful `bundleCSS` appends one descriptor per discovered file. -/
theorem bundleCSS_inv {σ : Type} (ops : FsOps σ) (minify : Bool) (s s' : State σ)
    (h : bundleCSS ops minify s = Except.ok s') :
    ∃ inputFiles, ops.globbySync stylesheetGlob s.fs = Except.ok inputFiles ∧
      s' = { s with bundles := s.bundles ++ inputFiles.map (cssDescriptor minify) } := by
  rcases except_cases (ops.globbySync stylesheetGlob s.fs) with ⟨e, hg⟩ | ⟨inputFiles, hg⟩
  · rw [bundleCSS_error ops minify s e hg] at h
    cases h
  · rw [bundleCSS_ok ops minify s inputFiles hg] at h
    cases h
    exact ⟨inputFiles, hg, rfl⟩


/-- The method `build()` as a chain of its four fallible steps. -/
theorem build_eq {σ : Type} (ops : FsOps σ) (s : State σ) :
    build ops s =
      (clearDist ops (consoleLog ["Clearing Dist Files"] s) >>= fun s1 =>
       buildWrappers ops (consoleLog ["Building Wrappers"] s1) >>= fun s2 =>
       bundleCSS ops false (consoleLog ["Building Production Package Bundles"] s2) >>= fun s3 =>
       bundleCSS ops true s3 >>= fun s4 =>
       Except.ok (bundleUMD true (bundleUMD false (bundleESM true (bundleESM false s4))))) :=
  rfl

/-- A successful `build()` has run its four fallible steps in order, each on the
state left by the one before. -/
theorem build_inv {σ : Type} (ops : FsOps σ) (s s' : State σ)
    (h : build ops s = Except.ok s') :
    ∃ s1 s2 s3 s4,
      clearDist ops (consoleLog ["Clearing Dist Files"] s) = Except.ok s1 ∧
      buildWrappers ops (consoleLog ["Building Wrappers"] s1) = Except.ok s2 ∧
      bundleCSS ops false (consoleLog ["Building Production Package Bundles"] s2) = Except.ok s3 ∧
      bundleCSS ops true s3 = Except.ok s4 ∧
      s' = bundleUMD true (bundleUMD false (bundleESM true (bundleESM false s4))) := by
  rw [build_eq] at h
  rcases except_cases (clearDist ops (consoleLog ["Clearing Dist Files"] s)) with ⟨e, h1⟩ | ⟨s1, h1⟩
  · rw [h1, error_bind] at h; cases h
  rw [h1, ok_bind] at h
  rcases except_cases (buildWrappers ops (consoleLog ["Building Wrappers"] s1))
    with ⟨e, h2⟩ | ⟨s2, h2⟩
  · rw [h2, error_bind] at h; cases h
  rw [h2, ok_bind] at h
  rcases except_cases
    (bundleCSS ops false (consoleLog ["Building Production Package Bundles"] s2))
    with ⟨e, h3⟩ | ⟨s3, h3⟩
  · rw [h3, error_bind] at h; cases h
  rw [h3, ok_bind] at h
  rcases except_cases (bundleCSS ops true s3) with ⟨e, h4⟩ | ⟨s4, h4⟩
  · rw [h4, error_bind] at h; cases h
  rw [h4, ok_bind] at h
  cases h
  exact ⟨s1, s2, s3, s4, h1, h2, h3, h4, rfl⟩

/-- The method `watch(env)`, branch by branch. -/
theorem watch_eq {σ : Type} (ops : FsOps σ) (env : String) (s : State σ) :
    watch ops env s =
      if env = "css" then bundleCSS ops false (consoleLog ["Building Dev Package Bundles: ", env] s)
      else if env = "esm" then
        Except.ok (bundleESM false (consoleLog ["Building Dev Package Bundles: ", env] s))
      else if env = "umd" then
        Except.ok (bundleUMD false (consoleLog ["Building Dev Package Bundles: ", env] s))
      else if env = "wrappers" then
        buildWrappers ops (consoleLog ["Building Dev Package Bundles: ", env] s)
      else
        (bundleCSS ops false (consoleLog ["Building Dev Package Bundles: ", env] s) >>= fun s1 =>
          Except.ok (bundleESM false s1)) :=
  rfl

theorem watch_default {σ : Type} (ops : FsOps σ) (env : String) (s : State σ)
    (h : env ∉ namedModes) :
    watch ops env s =
      (bundleCSS ops false (consoleLog ["Building Dev Package Bundles: ", env] s) >>= fun s1 =>
        Except.ok (bundleESM false s1)) := by
  simp only [namedModes, List.mem_cons, List.mem_singleton, List.not_mem_nil, or_false,
    not_or] at h
  rw [watch_eq, if_neg h.1, if_neg h.2.1, if_neg h.2.2.1, if_neg h.2.2.2]

/-- The method `bundle()`: which of `watch` and `build` runs. -/
theorem bundle_eq {σ : Type} (ops : FsOps σ) (s : State σ) :
    bundle ops s =
      ((match s.env with
        | none => build ops s
        | some env => if env ≠ "" then watch ops env s else build ops s) >>= fun s' =>
        Except.ok (s'.bundles, s')) :=
  rfl

theorem bundle_absent {σ : Type} (ops : FsOps σ) (s : State σ) (h : s.env = none) :
    bundle ops s = (build ops s >>= fun s' => Except.ok (s'.bundles, s')) := by
  rw [bundle_eq, h]

theorem bundle_empty {σ : Type} (ops : FsOps σ) (s : State σ) (h : s.env = some "") :
    bundle ops s = (build ops s >>= fun s' => Except.ok (s'.bundles, s')) := by
  rw [bundle_eq, h]
  rfl

theorem bundle_present {σ : Type} (ops : FsOps σ) (s : State σ) (env : String)
    (h : s.env = some env) (hne : env ≠ "") :
    bundle ops s = (watch ops env s >>= fun s' => Except.ok (s'.bundles, s')) := by
  rw [bundle_eq, h]
  simp only [if_pos hne]

/-- The full release sequence on a state without descriptors, when every external
call succeeds. -/
theorem build_ok {σ : Type} (ops : FsOps σ) (s : State σ) (fs1 fs2 : σ) (content : String)
    (inputFiles : List String)
    (hclear : ops.emptyDirSync "./dist" s.fs = Except.ok fs1)
    (hread : ops.readFileSync wrapperSource fs1 = Except.ok content)
    (hwrite : ops.outputFileSync wrapperTarget (replaceCRLF content) fs1 = Except.ok fs2)
    (hglob : ops.globbySync stylesheetGlob fs2 = Except.ok inputFiles) :
    build ops s = Except.ok
      { s with
        bundles := s.bundles ++ inputFiles.map (cssDescriptor false) ++
          inputFiles.map (cssDescriptor true) ++
          [esmDescriptor s.version false] ++ [esmDescriptor s.version true] ++
          [umdDescriptor s.version false] ++ [umdDescriptor s.version true]
        fs := fs2
        console := s.console ++ [["Clearing Dist Files"]] ++ [["Building Wrappers"]] ++
          [["Building Production Package Bundles"]] } := by
  rw [build_eq]
  rw [clearDist_ok ops (consoleLog ["Clearing Dist Files"] s) fs1 hclear, ok_bind]
  rw [buildWrappers_ok ops _ content fs2 hread hwrite, ok_bind]
  rw [bundleCSS_ok ops false _ inputFiles hglob, ok_bind]
  rw [bundleCSS_ok ops true _ inputFiles hglob, ok_bind]
  rfl


/-! ## What the builders leave in the collection -/

theorem allBuilt_constructor {σ : Type} (version : String) (env : Option String) (fs : σ) :
    (constructor version env fs).allBuilt := by
  intro d hd
  simp [constructor] at hd

theorem allBuilt_consoleLog {σ : Type} (args : List String) (s : State σ) (h : s.allBuilt) :
    (consoleLog args s).allBuilt := h

theorem allBuilt_bundleESM {σ : Type} (minify : Bool) (s : State σ) (h : s.allBuilt) :
    (bundleESM minify s).allBuilt := by
  intro d hd
  simp only [bundleESM, List.mem_append, List.mem_singleton] at hd
  rcases hd with hd | hd
  · exact h d hd
  · exact Or.inr (Or.inl ⟨minify, hd⟩)

theorem allBuilt_bundleUMD {σ : Type} (minify : Bool) (s : State σ) (h : s.allBuilt) :
    (bundleUMD minify s).allBuilt := by
  intro d hd
  simp only [bundleUMD, List.mem_append, List.mem_singleton] at hd
  rcases hd with hd | hd
  · exact h d hd
  · exact Or.inr (Or.inr ⟨minify, hd⟩)

theorem allBuilt_bundleCSS {σ : Type} (ops : FsOps σ) (minify : Bool) (s s' : State σ)
    (h : s.allBuilt) (hrun : bundleCSS ops minify s = Except.ok s') : s'.allBuilt := by
  obtain ⟨inputFiles, _, rfl⟩ := bundleCSS_inv ops minify s s' hrun
  intro d hd
  simp only [List.mem_append, List.mem_map] at hd
  rcases hd with hd | ⟨inputFile, _, hd⟩
  · exact h d hd
  · exact Or.inl ⟨minify, inputFile, hd.symm⟩

theorem allBuilt_clearDist {σ : Type} (ops : FsOps σ) (s s' : State σ)
    (h : s.allBuilt) (hrun : clearDist ops s = Except.ok s') : s'.allBuilt := by
  obtain ⟨fs, _, rfl⟩ := clearDist_inv ops s s' hrun
  exact h

theorem allBuilt_buildWrappers {σ : Type} (ops : FsOps σ) (s s' : State σ)
    (h : s.allBuilt) (hrun : buildWrappers ops s = Except.ok s') : s'.allBuilt := by
  obtain ⟨content, fs, _, _, rfl⟩ := buildWrappers_inv ops s s' hrun
  exact h

theorem allBuilt_build {σ : Type} (ops : FsOps σ) (s s' : State σ)
    (h : s.allBuilt) (hrun : build ops s = Except.ok s') : s'.allBuilt := by
  obtain ⟨s1, s2, s3, s4, h1, h2, h3, h4, rfl⟩ := build_inv ops s s' hrun
  have a1 := allBuilt_clearDist ops _ s1 (allBuilt_consoleLog _ s h) h1
  have a2 := allBuilt_buildWrappers ops _ s2 (allBuilt_consoleLog _ s1 a1) h2
  have a3 := allBuilt_bundleCSS ops false _ s3 (allBuilt_consoleLog _ s2 a2) h3
  have a4 := allBuilt_bundleCSS ops true _ s4 a3 h4
  exact allBuilt_bundleUMD true _ (allBuilt_bundleUMD false _
    (allBuilt_bundleESM true _ (allBuilt_bundleESM false _ a4)))

theorem allBuilt_watch {σ : Type} (ops : FsOps σ) (env : String) (s s' : State σ)
    (h : s.allBuilt) (hrun : watch ops env s = Except.ok s') : s'.allBuilt := by
  have h0 := allBuilt_consoleLog ["Building Dev Package Bundles: ", env] s h
  rw [watch_eq] at hrun
  split at hrun
  · exact allBuilt_bundleCSS ops false _ s' h0 hrun
  split at hrun
  · cases hrun
    exact allBuilt_bundleESM false _ h0
  split at hrun
  · cases hrun
    exact allBuilt_bundleUMD false _ h0
  split at hrun
  · exact allBuilt_buildWrappers ops _ s' h0 hrun
  rcases except_cases
    (bundleCSS ops false (consoleLog ["Building Dev Package Bundles: ", env] s))
    with ⟨e, h1⟩ | ⟨s1, h1⟩
  · rw [h1, error_bind] at hrun; cases hrun
  rw [h1, ok_bind] at hrun
  cases hrun
  exact allBuilt_bundleESM false _ (allBuilt_bundleCSS ops false _ s1 h0 h1)

/-- Whatever the mode, a successful `bundle()` returns the collection of the final
state, and every descriptor in it was made by one of the three builders. -/
theorem allBuilt_bundle {σ : Type} (ops : FsOps σ) (s : State σ) (ds : List Descriptor)
    (final : State σ) (h : s.allBuilt) (hrun : bundle ops s = Except.ok (ds, final)) :
    final.allBuilt ∧ ds = final.bundles := by
  rw [bundle_eq] at hrun
  rcases except_cases (match s.env with
    | none => build ops s
    | some env => if env ≠ "" then watch ops env s else build ops s) with ⟨e, h1⟩ | ⟨s1, h1⟩
  · rw [h1, error_bind] at hrun; cases hrun
  rw [h1, ok_bind] at hrun
  cases hrun
  refine ⟨?_, rfl⟩
  split at h1
  · exact allBuilt_build ops s _ h h1
  · split at h1
    · exact allBuilt_watch ops _ s _ h h1
    · exact allBuilt_build ops s _ h h1

theorem eolTerminal_of_built (version : String) (d : Descriptor) (h : d.built version) :
    d.eolTerminal := by
  rcases h with ⟨minify, inputFile, rfl⟩ | ⟨minify, rfl⟩ | ⟨minify, rfl⟩
  · refine ⟨by simp [cssDescriptor], rfl, ?_⟩
    simp [cssDescriptor, _getEOLPlugin]
  · refine ⟨by simp [esmDescriptor], rfl, ?_⟩
    cases minify <;> simp [esmDescriptor, _getEOLPlugin]
  · refine ⟨by simp [umdDescriptor], rfl, ?_⟩
    cases minify <;> simp [umdDescriptor, _getEOLPlugin]


/-! ## Mode dispatch -/

theorem minifies_cssDescriptor_false (inputFile : String) :
    (cssDescriptor false inputFile).minifies = false := rfl

theorem minifies_esmDescriptor_false (version : String) :
    (esmDescriptor version false).minifies = false := rfl

theorem minifies_umdDescriptor_false (version : String) :
    (umdDescriptor version false).minifies = false := rfl

/-- Claim C1: with `env` absent, when the four external calls succeed — the output
directory is emptied in the initial file system, the wrapper is read from and
written to the emptied one, and the stylesheets are discovered in the file
system left by the copy — `bundle()` returns exactly `2n+4` descriptors for `n`
discovered stylesheets: the unminified stylesheet descriptors, the minified
ones, then unminified ESM, minified ESM, unminified UMD, minified UMD.  The
file system at the end is the one left by the wrapper copy, and the three
progress messages were printed in the order clear, wrappers, bundles. -/
theorem bundle_full_release {σ : Type} (ops : FsOps σ) (version : String) (fs0 fs1 fs2 : σ)
    (content : String) (inputFiles : List String)
    (hclear : ops.emptyDirSync "./dist" fs0 = Except.ok fs1)
    (hread : ops.readFileSync wrapperSource fs1 = Except.ok content)
    (hwrite : ops.outputFileSync wrapperTarget (replaceCRLF content) fs1 = Except.ok fs2)
    (hglob : ops.globbySync stylesheetGlob fs2 = Except.ok inputFiles) :
    ∃ ds final,
      bundle ops (constructor version none fs0) = Except.ok (ds, final) ∧
      ds = inputFiles.map (cssDescriptor false) ++ inputFiles.map (cssDescriptor true) ++
        [esmDescriptor (banner version) false, esmDescriptor (banner version) true,
         umdDescriptor (banner version) false, umdDescriptor (banner version) true] ∧
      ds.length = 2 * inputFiles.length + 4 ∧
      final.bundles = ds ∧ final.fs = fs2 ∧
      final.console = [["Clearing Dist Files"], ["Building Wrappers"],
        ["Building Production Package Bundles"]] := by
  have hb := build_ok ops (constructor version none fs0) fs1 fs2 content inputFiles
    hclear hread hwrite hglob
  rw [bundle_absent ops _ rfl, hb, ok_bind]
  refine ⟨_, _, rfl, ?_, ?_, rfl, rfl, rfl⟩
  · simp [constructor]
  · simp [constructor]
    omega

/-- Claim C1, witness: on the sample tree, with one stylesheet entry, the release run
succeeds and returns six descriptors. -/
theorem bundle_full_release_witness :
    ∃ ds final,
      bundle memoryFs (constructor "6.3.0" none sampleFiles) = Except.ok (ds, final) ∧
      ds.length = 6 ∧
      final.fs = [ ("./src/js/builds/jquery_wrapper.js", "a\r\nb"),
        ("./src/scss/tabulator.scss", "x"), ("./src/scss/themes/_vars.scss", "y"),
        ("./dist/js/jquery_wrapper.js", "a\nb") ] := by
  obtain ⟨ds, final, h1, _, h3, _, h5, _⟩ :=
    bundle_full_release memoryFs "6.3.0" sampleFiles
      [ ("./src/js/builds/jquery_wrapper.js", "a\r\nb"),
        ("./src/scss/tabulator.scss", "x"), ("./src/scss/themes/_vars.scss", "y") ]
      [ ("./src/js/builds/jquery_wrapper.js", "a\r\nb"),
        ("./src/scss/tabulator.scss", "x"), ("./src/scss/themes/_vars.scss", "y"),
        ("./dist/js/jquery_wrapper.js", "a\nb") ]
      "a\r\nb" ["./src/scss/tabulator.scss"] rfl rfl rfl rfl
  exact ⟨ds, final, h1, h3, h5⟩

/-- Claim C2: with `env` equal to "css", `bundle()` returns exactly the unminified
stylesheet descriptors, one per discovered stylesheet; with "esm" exactly the
unminified ESM descriptor; with "umd" exactly the unminified UMD descriptor;
with "wrappers" the empty list (after the wrapper copy).  No descriptor of
these results minifies. -/
theorem bundle_named_modes {σ : Type} (ops : FsOps σ) (version : String) (fs : σ) :
    (∀ inputFiles, ops.globbySync stylesheetGlob fs = Except.ok inputFiles →
      ∃ final, bundle ops (constructor version (some "css") fs) =
          Except.ok (inputFiles.map (cssDescriptor false), final) ∧
        (inputFiles.map (cssDescriptor false)).length = inputFiles.length ∧
        final.fs = fs ∧
        ∀ d ∈ inputFiles.map (cssDescriptor false), d.minifies = false) ∧
    (∃ final, bundle ops (constructor version (some "esm") fs) =
        Except.ok ([esmDescriptor (banner version) false], final) ∧ final.fs = fs ∧
      (esmDescriptor (banner version) false).minifies = false) ∧
    (∃ final, bundle ops (constructor version (some "umd") fs) =
        Except.ok ([umdDescriptor (banner version) false], final) ∧ final.fs = fs ∧
      (umdDescriptor (banner version) false).minifies = false) ∧
    (∀ content fs', ops.readFileSync wrapperSource fs = Except.ok content →
      ops.outputFileSync wrapperTarget (replaceCRLF content) fs = Except.ok fs' →
      ∃ final, bundle ops (constructor version (some "wrappers") fs) = Except.ok ([], final) ∧
        final.fs = fs') := by
  refine ⟨?_, ?_, ?_, ?_⟩
  · intro inputFiles hglob
    rw [bundle_present ops _ "css" rfl (by decide), watch_eq, if_pos rfl,
      bundleCSS_ok ops false _ inputFiles hglob, ok_bind]
    refine ⟨_, rfl, by simp, rfl, ?_⟩
    intro d hd
    obtain ⟨inputFile, _, rfl⟩ := List.mem_map.1 hd
    rfl
  · rw [bundle_present ops _ "esm" rfl (by decide), watch_eq, if_neg (by decide), if_pos rfl,
      ok_bind]
    exact ⟨_, rfl, rfl, rfl⟩
  · rw [bundle_present ops _ "umd" rfl (by decide), watch_eq, if_neg (by decide),
      if_neg (by decide), if_pos rfl, ok_bind]
    exact ⟨_, rfl, rfl, rfl⟩
  · intro content fs' hread hwrite
    rw [bundle_present ops _ "wrappers" rfl (by decide), watch_eq, if_neg (by decide),
      if_neg (by decide), if_neg (by decide), if_pos rfl,
      buildWrappers_ok ops _ content fs' hread hwrite, ok_bind]
    exact ⟨_, rfl, rfl⟩

/-- Claim C2, witness: on the sample tree the "css" mode returns the one unminified
stylesheet descriptor, and the "wrappers" mode returns the empty list and
leaves the copied wrapper behind. -/
theorem bundle_named_modes_witness :
    (∃ final, bundle memoryFs (constructor "6.3.0" (some "css") sampleFiles) =
        Except.ok ([cssDescriptor false "./src/scss/tabulator.scss"], final)) ∧
    (∃ final, bundle memoryFs (constructor "6.3.0" (some "wrappers") sampleFiles) =
        Except.ok ([], final) ∧
      final.fs = sampleFiles ++ [("./dist/js/jquery_wrapper.js", "a\nb")]) := by
  have h := bundle_named_modes memoryFs "6.3.0" sampleFiles
  constructor
  · obtain ⟨final, h1, _⟩ := h.1 ["./src/scss/tabulator.scss"] rfl
    exact ⟨final, h1⟩
  · exact h.2.2.2 "a\r\nb" (sampleFiles ++ [("./dist/js/jquery_wrapper.js", "a\nb")]) rfl rfl


theorem cssDescriptor_ne_umdDescriptor (minify minify' : Bool) (inputFile version : String) :
    cssDescriptor minify inputFile ≠ umdDescriptor version minify' := by
  intro h
  have h2 := congrArg (fun d => d.plugins.length) h
  simp [cssDescriptor, umdDescriptor] at h2

theorem esmDescriptor_ne_umdDescriptor (minify minify' : Bool) (version version' : String) :
    esmDescriptor version minify ≠ umdDescriptor version' minify' := by
  intro h
  have h2 := congrArg Descriptor.input h
  simp [esmDescriptor, umdDescriptor] at h2

/-- Claim C3, counterexample: the empty string is a string and none of the four mode
names, yet with `env` equal to it `bundle()` runs the full release sequence: on
the sample tree it returns six descriptors, UMD and minified ones among them,
and not the stylesheet and ESM dev subset. -/
theorem bundle_empty_env_runs_release :
    (∃ final, bundle memoryFs (constructor "6.3.0" (some "") sampleFiles) =
        Except.ok
          ([cssDescriptor false "./src/scss/tabulator.scss",
            cssDescriptor true "./src/scss/tabulator.scss",
            esmDescriptor (banner "6.3.0") false, esmDescriptor (banner "6.3.0") true,
            umdDescriptor (banner "6.3.0") false, umdDescriptor (banner "6.3.0") true],
           final)) ∧
    ¬ ∃ final, bundle memoryFs (constructor "6.3.0" (some "") sampleFiles) =
        Except.ok
          ([cssDescriptor false "./src/scss/tabulator.scss",
            esmDescriptor (banner "6.3.0") false], final) := by
  constructor
  · exact ⟨_, rfl⟩
  · rintro ⟨final, h⟩
    have h2 : (bundle memoryFs (constructor "6.3.0" (some "") sampleFiles)).toOption.map
        (fun p => p.1.length) = some 2 := by
      rw [h]
      rfl
    exact absurd h2 (by decide)

/-- Claim C3, as amended: for every non-empty `env` string that is not one of "css",
"esm", "umd", "wrappers", `bundle()` returns the unminified stylesheet
descriptors followed by the single unminified ESM descriptor, with no UMD
descriptor and no minifying descriptor, and leaves the file system as it was;
for the empty string `bundle()` runs the full release sequence, as it does for
an absent `env`. -/
theorem bundle_unrecognized_env {σ : Type} (ops : FsOps σ) (version : String) (fs : σ) :
    (∀ env inputFiles, env ≠ "" → env ∉ namedModes →
      ops.globbySync stylesheetGlob fs = Except.ok inputFiles →
      ∃ ds final, bundle ops (constructor version (some env) fs) = Except.ok (ds, final) ∧
        ds = inputFiles.map (cssDescriptor false) ++ [esmDescriptor (banner version) false] ∧
        final.fs = fs ∧
        ∀ d ∈ ds, d.minifies = false ∧ ∀ minify, d ≠ umdDescriptor (banner version) minify) ∧
    (∀ fs1 fs2 content inputFiles,
      ops.emptyDirSync "./dist" fs = Except.ok fs1 →
      ops.readFileSync wrapperSource fs1 = Except.ok content →
      ops.outputFileSync wrapperTarget (replaceCRLF content) fs1 = Except.ok fs2 →
      ops.globbySync stylesheetGlob fs2 = Except.ok inputFiles →
      ∃ final, bundle ops (constructor version (some "") fs) = Except.ok
        (inputFiles.map (cssDescriptor false) ++ inputFiles.map (cssDescriptor true) ++
          [esmDescriptor (banner version) false, esmDescriptor (banner version) true,
           umdDescriptor (banner version) false, umdDescriptor (banner version) true],
         final) ∧ final.fs = fs2) := by
  constructor
  · intro env inputFiles hne hnamed hglob
    rw [bundle_present ops _ env rfl hne, watch_default ops env _ hnamed,
      bundleCSS_ok ops false _ inputFiles hglob, ok_bind, ok_bind]
    refine ⟨_, _, rfl, by simp [bundleESM, constructor, consoleLog], rfl, ?_⟩
    intro d hd
    simp only [bundleESM, consoleLog, constructor, List.nil_append, List.mem_append,
      List.mem_map, List.mem_singleton] at hd
    rcases hd with ⟨inputFile, _, rfl⟩ | rfl
    · exact ⟨rfl, fun minify => cssDescriptor_ne_umdDescriptor false minify inputFile _⟩
    · exact ⟨rfl, fun minify => esmDescriptor_ne_umdDescriptor false minify _ _⟩
  · intro fs1 fs2 content inputFiles hclear hread hwrite hglob
    have hb := build_ok ops (constructor version (some "") fs) fs1 fs2 content inputFiles
      hclear hread hwrite hglob
    rw [bundle_empty ops _ rfl, hb, ok_bind]
    refine ⟨_, congrArg Except.ok (Prod.ext ?_ rfl), ?_⟩
    · simp [constructor]
    · rfl

/-- Claim C3, witness: on the sample tree, `env` equal to "bogus" yields the
unminified stylesheet descriptor followed by the unminified ESM descriptor. -/
theorem bundle_unrecognized_env_witness :
    ∃ final, bundle memoryFs (constructor "6.3.0" (some "bogus") sampleFiles) =
      Except.ok ([cssDescriptor false "./src/scss/tabulator.scss",
        esmDescriptor (banner "6.3.0") false], final) := by
  obtain ⟨ds, final, h1, h2, _⟩ :=
    (bundle_unrecognized_env memoryFs "6.3.0" sampleFiles).1 "bogus"
      ["./src/scss/tabulator.scss"] (by decide) (by decide) rfl
  subst h2
  exact ⟨final, h1⟩

/-- Claim C9: for every version, every `env` and every file system, every descriptor
in the list returned by `bundle()` has a non-empty plugins list whose last
element is the eol-plugin, and the eol-plugin occurs nowhere before the last
position. -/
theorem bundle_eol_terminal {σ : Type} (ops : FsOps σ) (version : String)
    (env : Option String) (fs : σ) (ds : List Descriptor) (final : State σ)
    (hrun : bundle ops (constructor version env fs) = Except.ok (ds, final))
    (d : Descriptor) (hd : d ∈ ds) :
    d.plugins ≠ [] ∧ d.plugins.getLast? = some (some _getEOLPlugin) ∧
      d.plugins.dropLast.count (some _getEOLPlugin) = 0 := by
  obtain ⟨hall, rfl⟩ := allBuilt_bundle ops _ ds final
    (allBuilt_constructor version env fs) hrun
  exact eolTerminal_of_built final.version d (hall d hd)

/-- Claim C9, witness: in the release run on the sample tree the minified UMD
descriptor is returned, and its pipeline ends with the eol-plugin. -/
theorem bundle_eol_terminal_witness :
    (umdDescriptor (banner "6.3.0") true).plugins.getLast? = some (some _getEOLPlugin) :=
  (bundle_eol_terminal memoryFs "6.3.0" none sampleFiles _ _ rfl
    (umdDescriptor (banner "6.3.0") true) (by decide)).2.1


/-! ## Replacing the source extension: supporting lemmas -/

theorem replaceFirstChars_cons_of_match (pat rep : List Char) (c : Char) (cs : List Char)
    (h : pat <+: c :: cs) :
    replaceFirstChars pat rep (c :: cs) = rep ++ (c :: cs).drop pat.length := by
  have hb : pat.isPrefixOf (c :: cs) = true := List.isPrefixOf_iff_prefix.2 h
  simp only [replaceFirstChars, hb, if_true]

theorem replaceFirstChars_cons_of_no_match (pat rep : List Char) (c : Char) (cs : List Char)
    (h : ¬ pat <+: c :: cs) :
    replaceFirstChars pat rep (c :: cs) = c :: replaceFirstChars pat rep cs := by
  have hb : pat.isPrefixOf (c :: cs) = false := by
    cases hx : pat.isPrefixOf (c :: cs) with
    | false => rfl
    | true => exact absurd (List.isPrefixOf_iff_prefix.1 hx) h
  simp only [replaceFirstChars, hb]
  rfl

/-- With the pattern present, `replace` rewrites the text around its first
occurrence: the part in front of it and the part behind it are kept. -/
theorem replaceFirstChars_split (pat : List Char) (l : List Char) (h : pat <:+: l) :
    ∃ front back, l = front ++ pat ++ back ∧
      ∀ rep, replaceFirstChars pat rep l = front ++ rep ++ back := by
  induction l with
  | nil =>
    have hp : pat = [] := List.infix_nil.1 h
    subst hp
    exact ⟨[], [], rfl, fun rep => by simp [replaceFirstChars]⟩
  | cons c cs ih =>
    by_cases hpre : pat <+: c :: cs
    · refine ⟨[], (c :: cs).drop pat.length, ?_, ?_⟩
      · obtain ⟨t, ht⟩ := hpre
        rw [← ht]
        simp
      · intro rep
        rw [replaceFirstChars_cons_of_match pat rep c cs hpre]
        rfl
    · have hin : pat <:+: cs := by
        rcases List.infix_cons_iff.1 h with h1 | h1
        · exact absurd h1 hpre
        · exact h1
      obtain ⟨front, back, hl, hrep⟩ := ih hin
      refine ⟨c :: front, back, by rw [hl]; rfl, ?_⟩
      intro rep
      rw [replaceFirstChars_cons_of_no_match pat rep c cs hpre, hrep rep]
      rfl

/-- The extension cannot start inside a text and run over into a following copy of
itself: it starts with a dot and holds no other dot. -/
theorem scss_prefix_append (t : List Char) (h : scss <+: t ++ scss) : t = [] ∨ scss <+: t := by
  match t with
  | [] => exact Or.inl rfl
  | [a] => simp [scss, List.cons_prefix_cons] at h
  | [a, b] => simp [scss, List.cons_prefix_cons] at h
  | [a, b, c] => simp [scss, List.cons_prefix_cons] at h
  | [a, b, c, d] => simp [scss, List.cons_prefix_cons] at h
  | a :: b :: c :: d :: e :: rest =>
    right
    simp only [scss, List.cons_append, List.cons_prefix_cons, List.nil_prefix, and_true] at h ⊢
    exact h

/-- A name that holds the extension only at its end: the extension is replaced in
place and the stem is kept. -/
theorem replaceFirstChars_trailing (stem rep : List Char) (h : ¬ scss <:+: stem) :
    replaceFirstChars scss rep (stem ++ scss) = stem ++ rep := by
  induction stem with
  | nil =>
    rw [List.nil_append, replaceFirstChars_cons_of_match scss rep '.' _ (List.prefix_refl _)]
    simp [scss]
  | cons c t ih =>
    have ht : ¬ scss <:+: t := fun h2 => h (List.infix_cons h2)
    have hpre : ¬ scss <+: c :: (t ++ scss) := by
      intro h2
      rcases scss_prefix_append (c :: t) h2 with h3 | h3
      · cases h3
      · exact h h3.isInfix
    rw [List.cons_append, replaceFirstChars_cons_of_no_match scss rep c _ hpre, ih ht]
    rfl


theorem replaceFirst_trailing (stem rep : String) (h : ¬ scss <:+: stem.data) :
    replaceFirst (stem ++ ".scss") ".scss" rep = stem ++ rep := by
  apply String.ext
  simp only [replaceFirst, String.data_append]
  exact replaceFirstChars_trailing stem.data rep.data h

theorem endsWith_append_right (text ending : String) : endsWith (text ++ ending) ending := by
  unfold endsWith
  rw [String.data_append]
  exact List.suffix_append _ _

theorem endsWith_append_cancel (a b c : String) :
    endsWith (a ++ c) (b ++ c) ↔ endsWith a b := by
  unfold endsWith
  simp only [String.data_append]
  constructor
  · rintro ⟨t, ht⟩
    refine ⟨t, ?_⟩
    rw [← List.append_assoc] at ht
    exact List.append_cancel_right ht
  · rintro ⟨t, ht⟩
    exact ⟨t, by rw [← List.append_assoc, ht]⟩

/-- An ending without a slash that closes a path below `./dist/css/` closes the
file name already, unless the name is shorter than the ending. -/
theorem min_suffix_of_path (stem : String) (h : endsWith ("./dist/css/" ++ stem) ".min") :
    endsWith stem ".min" := by
  unfold endsWith at h ⊢
  rw [String.data_append] at h
  rcases List.suffix_or_suffix_of_suffix h (List.suffix_append "./dist/css/".data stem.data)
    with h1 | h1
  · exact h1
  · -- the name is a proper ending of ".min": the slash in front of it does not fit
    have hcases : stem.data = ['.', 'm', 'i', 'n'] ∨ stem.data = ['m', 'i', 'n'] ∨
        stem.data = ['i', 'n'] ∨ stem.data = ['n'] ∨ stem.data = [] := by
      have h2 : stem.data <:+ ['.', 'm', 'i', 'n'] := h1
      simp only [List.suffix_cons_iff, List.suffix_nil] at h2
      tauto
    rcases hcases with h2 | h2 | h2 | h2 | h2
    · exact ⟨[], by rw [h2]; rfl⟩
    all_goals
      rw [h2] at h
      exact absurd h (by decide)

/-- Claim C11, counterexample: both paths match the stylesheet glob.  For the first,
whose name holds ".scss" twice, the output file is "./dist/css/tabulator.css.scss",
which is not the name with its trailing ".scss" stripped plus ".css" and does
not end in ".css".  For the second, whose stem ends in ".min", the unminified
output file ends in ".min.css". -/
theorem cssDescriptor_output_file_counterexample :
    globMatch (splitChars '/' stylesheetGlob.data)
        (splitChars '/' "./src/scss/tabulator.scss.scss".data) = true ∧
      (cssDescriptor false "./src/scss/tabulator.scss.scss").output.files =
        ["./dist/css/tabulator.css.scss"] ∧
      ¬ endsWith "./dist/css/tabulator.css.scss" ".css" ∧
      globMatch (splitChars '/' stylesheetGlob.data)
        (splitChars '/' "./src/scss/tabulator.min.scss".data) = true ∧
      (cssDescriptor false "./src/scss/tabulator.min.scss").output.files =
        ["./dist/css/tabulator.min.css"] ∧
      endsWith "./dist/css/tabulator.min.css" ".min.css" := by
  refine ⟨by decide, by decide, ?_, by decide, by decide, ?_⟩
  · unfold endsWith
    decide
  · unfold endsWith
    decide

/-- Claim C11, as amended: for a discovered path whose last segment is a stem followed
by ".scss", the stem holding no ".scss" itself, and for both values of `minify`,
the descriptor has that path as input and the output file "./dist/css/" + stem +
(".min" iff minify) + ".css".  The output file ends in ".css"; it ends in
".min.css" when minifying, and without minifying exactly when the stem itself
ends in ".min". -/
theorem cssDescriptor_output_file (minify : Bool) (inputFile stem : String)
    (hseg : lastSegment inputFile = stem ++ ".scss")
    (hstem : ¬ scss <:+: stem.data) :
    (cssDescriptor minify inputFile).input = inputFile ∧
      (cssDescriptor minify inputFile).output = Output.single
        { file := "./dist/css/" ++ stem ++ (if minify then ".min" else "") ++ ".css",
          format := "es", name := none, esModule := none, exports := none, sourcemap := none } ∧
      endsWith ("./dist/css/" ++ stem ++ (if minify then ".min" else "") ++ ".css") ".css" ∧
      (minify = true →
        endsWith ("./dist/css/" ++ stem ++ (if minify then ".min" else "") ++ ".css") ".min.css") ∧
      (minify = false →
        (endsWith ("./dist/css/" ++ stem ++ (if minify then ".min" else "") ++ ".css") ".min.css"
          ↔ endsWith stem ".min")) := by
  refine ⟨rfl, ?_, endsWith_append_right _ _, ?_, ?_⟩
  · simp only [cssDescriptor, hseg, replaceFirst_trailing stem _ hstem, String.append_assoc]
  · intro hm
    subst hm
    have h := endsWith_append_right ("./dist/css/" ++ stem) ".min.css"
    simpa [String.append_assoc] using h
  · intro hm
    subst hm
    have h1 : "./dist/css/" ++ stem ++ (if false = true then ".min" else "") ++ ".css"
        = ("./dist/css/" ++ stem) ++ ".css" := by
      simp
    have h2 : (".min.css" : String) = ".min" ++ ".css" := by decide
    rw [h1, h2, endsWith_append_cancel]
    constructor
    · exact min_suffix_of_path stem
    · intro h
      obtain ⟨t, ht⟩ := h
      refine ⟨"./dist/css/".data ++ t, ?_⟩
      rw [String.data_append, List.append_assoc, ht]

/-- Claim C11, witness: the stylesheet entry of the sample tree. -/
theorem cssDescriptor_output_file_witness :
    (cssDescriptor true "./src/scss/tabulator.scss").output = Output.single
      { file := "./dist/css/tabulator.min.css",
        format := "es", name := none, esModule := none, exports := none, sourcemap := none } :=
  (cssDescriptor_output_file true "./src/scss/tabulator.scss" "tabulator"
    (by decide) (by decide)).2.1


/-! ## The stylesheet glob: supporting lemmas -/

theorem wildcardMatch_literal (p : Char) (ps text : List Char) (hp : p ≠ '*')
    (h : wildcardMatch (p :: ps) text = true) :
    ∃ ts, text = p :: ts ∧ wildcardMatch ps ts = true := by
  cases text with
  | nil => simp [wildcardMatch, hp] at h
  | cons t ts =>
    simp only [wildcardMatch, hp, if_false, Bool.and_eq_true, decide_eq_true_eq] at h
    exact ⟨ts, by rw [h.1], h.2⟩

theorem wildcardMatch_star (ps text : List Char)
    (h : wildcardMatch ('*' :: ps) text = true) :
    ∃ rest, rest <:+ text ∧ wildcardMatch ps rest = true := by
  simp only [wildcardMatch, if_true, List.any_eq_true, List.mem_tails] at h
  exact h

/-- A name matched by `tabulator*.scss` starts with "tabulator" and ends with ".scss",
the two parts not overlapping. -/
theorem wildcardMatch_tabulator_scss (seg : List Char)
    (h : wildcardMatch "tabulator*.scss".data seg = true) :
    ∃ mid, seg = "tabulator".data ++ mid ++ scss := by
  have h0 : "tabulator*.scss".data =
      ['t', 'a', 'b', 'u', 'l', 'a', 't', 'o', 'r', '*', '.', 's', 'c', 's', 's'] := rfl
  rw [h0] at h
  obtain ⟨t1, e1, h1⟩ := wildcardMatch_literal _ _ _ (by decide) h
  obtain ⟨t2, e2, h2⟩ := wildcardMatch_literal _ _ _ (by decide) h1
  obtain ⟨t3, e3, h3⟩ := wildcardMatch_literal _ _ _ (by decide) h2
  obtain ⟨t4, e4, h4⟩ := wildcardMatch_literal _ _ _ (by decide) h3
  obtain ⟨t5, e5, h5⟩ := wildcardMatch_literal _ _ _ (by decide) h4
  obtain ⟨t6, e6, h6⟩ := wildcardMatch_literal _ _ _ (by decide) h5
  obtain ⟨t7, e7, h7⟩ := wildcardMatch_literal _ _ _ (by decide) h6
  obtain ⟨t8, e8, h8⟩ := wildcardMatch_literal _ _ _ (by decide) h7
  obtain ⟨t9, e9, h9⟩ := wildcardMatch_literal _ _ _ (by decide) h8
  obtain ⟨rest, ⟨mid, emid⟩, hr⟩ := wildcardMatch_star _ _ h9
  obtain ⟨u1, f1, g1⟩ := wildcardMatch_literal _ _ _ (by decide) hr
  obtain ⟨u2, f2, g2⟩ := wildcardMatch_literal _ _ _ (by decide) g1
  obtain ⟨u3, f3, g3⟩ := wildcardMatch_literal _ _ _ (by decide) g2
  obtain ⟨u4, f4, g4⟩ := wildcardMatch_literal _ _ _ (by decide) g3
  obtain ⟨u5, f5, g5⟩ := wildcardMatch_literal _ _ _ (by decide) g4
  have hu5 : u5 = [] := by
    cases u5 with
    | nil => rfl
    | cons c cs => simp [wildcardMatch] at g5
  refine ⟨mid, ?_⟩
  rw [e1, e2, e3, e4, e5, e6, e7, e8, e9, ← emid, f1, f2, f3, f4, f5, hu5]
  simp [scss]

theorem globMatch_literal (p : List Char) (ps segments : List (List Char)) (hp : p ≠ ['*', '*'])
    (h : globMatch (p :: ps) segments = true) :
    ∃ seg segs, segments = seg :: segs ∧ wildcardMatch p seg = true ∧ globMatch ps segs = true := by
  cases segments with
  | nil => simp [globMatch, hp] at h
  | cons seg segs =>
    simp only [globMatch, hp, if_false, Bool.and_eq_true] at h
    exact ⟨seg, segs, rfl, h.1, h.2⟩

theorem globMatch_doubleStar (ps segments : List (List Char))
    (h : globMatch (['*', '*'] :: ps) segments = true) :
    ∃ rest, rest <:+ segments ∧ globMatch ps rest = true := by
  simp only [globMatch, if_true, List.any_eq_true, List.mem_tails] at h
  exact h

theorem getLast?_of_globMatch (segments : List (List Char))
    (h : globMatch [".".data, "src".data, "scss".data, ['*', '*'], "tabulator*.scss".data]
      segments = true) :
    ∃ mid, segments.getLast? = some ("tabulator".data ++ mid ++ scss) := by
  obtain ⟨s1, r1, e1, _, h1⟩ := globMatch_literal _ _ _ (by decide) h
  obtain ⟨s2, r2, e2, _, h2⟩ := globMatch_literal _ _ _ (by decide) h1
  obtain ⟨s3, r3, e3, _, h3⟩ := globMatch_literal _ _ _ (by decide) h2
  obtain ⟨rest, ⟨front, efront⟩, h4⟩ := globMatch_doubleStar _ _ h3
  obtain ⟨seg, r4, e4, hseg, h5⟩ := globMatch_literal _ _ _ (by decide) h4
  have hr4 : r4 = [] := by
    cases r4 with
    | nil => rfl
    | cons x xs => simp [globMatch] at h5
  obtain ⟨mid, hmid⟩ := wildcardMatch_tabulator_scss seg hseg
  refine ⟨mid, ?_⟩
  rw [e1, e2, e3, ← efront, e4, hr4, hmid]
  rw [show s1 :: s2 :: s3 :: (front ++ ["tabulator".data ++ mid ++ scss]) =
    (s1 :: s2 :: s3 :: front) ++ ["tabulator".data ++ mid ++ scss] from rfl]
  exact List.getLast?_concat _

/-- A path matched by the stylesheet glob has a last segment that starts with
"tabulator" and ends with ".scss". -/
theorem lastSegment_of_matchesStylesheetGlob (path : String)
    (h : matchesStylesheetGlob path = true) :
    ∃ mid : String, lastSegment path = "tabulator" ++ mid ++ ".scss" := by
  unfold matchesStylesheetGlob at h
  have h0 : splitChars '/' stylesheetGlob.data =
      [".".data, "src".data, "scss".data, ['*', '*'], "tabulator*.scss".data] := by decide
  rw [h0] at h
  obtain ⟨mid, hmid⟩ := getLast?_of_globMatch _ h
  refine ⟨⟨mid⟩, ?_⟩
  unfold lastSegment
  rw [hmid]
  apply String.ext
  simp [String.data_append]


/-! ## Stylesheet descriptors -/

theorem string_append_left_cancel (a b c : String) (h : a ++ b = a ++ c) : b = c := by
  apply String.ext
  have h2 := congrArg String.data h
  simp only [String.data_append] at h2
  exact List.append_cancel_left h2

theorem string_append_right_cancel (a b c : String) (h : a ++ c = b ++ c) : a = b := by
  apply String.ext
  have h2 := congrArg String.data h
  simp only [String.data_append] at h2
  exact List.append_cancel_right h2

/-- With ".scss" somewhere in the name, the replacement keeps what stands in front
of and behind its first occurrence. -/
theorem replaceFirst_split (text : String) (h : scss <:+: text.data) :
    ∃ front back : String, text = front ++ ".scss" ++ back ∧
      ∀ rep, replaceFirst text ".scss" rep = front ++ rep ++ back := by
  obtain ⟨front, back, hl, hrep⟩ := replaceFirstChars_split scss text.data h
  refine ⟨⟨front⟩, ⟨back⟩, ?_, ?_⟩
  · apply String.ext
    simp only [String.data_append]
    exact hl
  · intro rep
    apply String.ext
    simp only [replaceFirst, String.data_append]
    exact hrep rep.data

theorem insertMinChars_css (front : List Char) :
    insertMinChars (front ++ ['.', 'c', 's', 's']) = front ++ ['.', 'm', 'i', 'n', '.', 'c', 's', 's'] := by
  induction front with
  | nil => decide
  | cons c front ih =>
    have hdot : ¬ (c = '.' ∧ '.' ∉ front ++ ['.', 'c', 's', 's']) := by
      intro h
      exact h.2 (List.mem_append_right front (List.mem_cons_self _ _))
    rw [List.cons_append]
    unfold insertMinChars
    rw [if_neg hdot, ih]
    rfl

/-- The spec's ".min" infix on a path that ends in ".css": it lands directly in
front of that ending. -/
theorem insertMin_css (front : String) :
    insertMin (front ++ ".css") = front ++ ".min" ++ ".css" := by
  apply String.ext
  simp only [insertMin, String.data_append]
  rw [insertMinChars_css, List.append_assoc]
  rfl

/-- Claim C12, counterexample: the path is matched by the stylesheet glob and its
name holds ".scss" twice.  The unminified output file is
"./dist/css/tabulator.css.scss", whose extension is ".scss"; with the ".min"
infix in front of that extension it would be "./dist/css/tabulator.css.min.scss",
but the minified output file is "./dist/css/tabulator.min.css.scss". -/
theorem minified_output_not_before_extension :
    matchesStylesheetGlob "./src/scss/tabulator.scss.scss" = true ∧
      (cssDescriptor false "./src/scss/tabulator.scss.scss").output.files =
        ["./dist/css/tabulator.css.scss"] ∧
      (cssDescriptor true "./src/scss/tabulator.scss.scss").output.files =
        ["./dist/css/tabulator.min.css.scss"] ∧
      insertMin "./dist/css/tabulator.css.scss" = "./dist/css/tabulator.css.min.scss" ∧
      (cssDescriptor true "./src/scss/tabulator.scss.scss").output ≠
        (cssDescriptor false "./src/scss/tabulator.scss.scss").output.mapFiles insertMin :=
  ⟨by decide, by decide, by decide, by decide, by decide⟩

/-- Claim C12, as amended: for each family the descriptors built with `minify` true
and with `minify` false are equal in number and have the same inputs in the
same order; for ESM, for UMD, and for every stylesheet path whose file name
holds ".scss" only as its ending, the minified descriptor is the unminified one
with two changes only: the minify step (the postcss `minimize` parameter true
instead of false, `terser` instead of the `null` placeholder) and the ".min"
infix put in front of the extension of each output file.  Input, format,
exports, sourcemap, name, esModule and `onwarn` are the same. -/
theorem minified_vs_unminified (version : String) :
    (∀ inputFiles : List String,
      (inputFiles.map (cssDescriptor true)).length =
        (inputFiles.map (cssDescriptor false)).length ∧
      (inputFiles.map (cssDescriptor true)).map Descriptor.input = inputFiles ∧
      (inputFiles.map (cssDescriptor false)).map Descriptor.input = inputFiles) ∧
    (∀ inputFile stem : String, lastSegment inputFile = stem ++ ".scss" →
      ¬ scss <:+: stem.data →
      (cssDescriptor false inputFile).plugins =
        [ some (Plugin.postcss
            { modules := false, extract := true, minimize := false, sourceMap := true,
              plugins := ["postcss-prettify"] }),
          some _getEOLPlugin ] ∧
      cssDescriptor true inputFile =
        { cssDescriptor false inputFile with
          plugins :=
            [ some (Plugin.postcss
                { modules := false, extract := true, minimize := true, sourceMap := true,
                  plugins := ["postcss-prettify"] }),
              some _getEOLPlugin ]
          output := (cssDescriptor false inputFile).output.mapFiles insertMin }) ∧
    ((esmDescriptor version false).plugins =
        [ some Plugin.nodeResolve, none,
          some (Plugin.license ⟨"none", version⟩), some _getEOLPlugin ] ∧
      esmDescriptor version true =
        { esmDescriptor version false with
          plugins :=
            [ some Plugin.nodeResolve, some Plugin.terser,
              some (Plugin.license ⟨"none", version⟩), some _getEOLPlugin ]
          output := (esmDescriptor version false).output.mapFiles insertMin }) ∧
    ((umdDescriptor version false).plugins =
        [ some Plugin.nodeResolve, none,
          some (Plugin.license ⟨"none", version⟩), some _getEOLPlugin ] ∧
      umdDescriptor version true =
        { umdDescriptor version false with
          plugins :=
            [ some Plugin.nodeResolve, some Plugin.terser,
              some (Plugin.license ⟨"none", version⟩), some _getEOLPlugin ]
          output := (umdDescriptor version false).output.mapFiles insertMin }) := by
  refine ⟨?_, ?_, ⟨rfl, ?_⟩, ⟨rfl, ?_⟩⟩
  · intro inputFiles
    refine ⟨by simp, ?_, ?_⟩
    · rw [List.map_map]
      exact List.map_id _
    · rw [List.map_map]
      exact List.map_id _
  · intro inputFile stem hseg hstem
    refine ⟨rfl, ?_⟩
    have hfalse : replaceFirst (lastSegment inputFile) ".scss" ("" ++ ".css") = stem ++ ".css" := by
      rw [hseg]
      exact replaceFirst_trailing stem _ hstem
    have htrue : replaceFirst (lastSegment inputFile) ".scss" (".min" ++ ".css")
        = stem ++ (".min" ++ ".css") := by
      rw [hseg]
      exact replaceFirst_trailing stem _ hstem
    have hmin : insertMin ("./dist/css/" ++ (stem ++ ".css"))
        = "./dist/css/" ++ (stem ++ (".min" ++ ".css")) := by
      rw [← String.append_assoc, insertMin_css]
      simp only [String.append_assoc]
    simp only [cssDescriptor, Output.mapFiles, Bool.false_eq_true, if_false, if_true, hfalse,
      htrue, hmin]
  · simp only [esmDescriptor, Output.mapFiles, Bool.false_eq_true, if_false, if_true,
      List.map_cons, List.map_nil]
    congr 1
  · simp only [umdDescriptor, Output.mapFiles, Bool.false_eq_true, if_false, if_true]
    congr 1

/-- Claim C12, witness: the stylesheet entry of the sample tree; its minified
descriptor writes "./dist/css/tabulator.min.css", the unminified output file
with ".min" in front of ".css". -/
theorem minified_vs_unminified_witness :
    (cssDescriptor true "./src/scss/tabulator.scss").output =
        (cssDescriptor false "./src/scss/tabulator.scss").output.mapFiles insertMin ∧
      (cssDescriptor true "./src/scss/tabulator.scss").output.files =
        ["./dist/css/tabulator.min.css"] :=
  ⟨congrArg Descriptor.output
      ((minified_vs_unminified (banner "6.3.0")).2.1 "./src/scss/tabulator.scss" "tabulator"
        (by decide) (by decide)).2,
    by decide⟩

/-- Claim C20, counterexample: two distinct paths, both matched by the stylesheet
glob at different directory depths, whose descriptors write the same output
file, because only the last path segment enters the output name. -/
theorem stylesheet_outputs_collide :
    matchesStylesheetGlob "./src/scss/tabulator.scss" = true ∧
      matchesStylesheetGlob "./src/scss/themes/tabulator.scss" = true ∧
      "./src/scss/tabulator.scss" ≠ "./src/scss/themes/tabulator.scss" ∧
      memoryFs.globbySync stylesheetGlob nestedFiles =
        Except.ok ["./src/scss/tabulator.scss", "./src/scss/themes/tabulator.scss"] ∧
      (cssDescriptor false "./src/scss/tabulator.scss").output.files =
        ["./dist/css/tabulator.css"] ∧
      (cssDescriptor false "./src/scss/themes/tabulator.scss").output.files =
        ["./dist/css/tabulator.css"] :=
  ⟨by decide, by decide, by decide, rfl, by decide, by decide⟩

/-- Claim C20, as amended: for every list of discovered paths whose file names (last
path segments) are pairwise distinct and hold ".scss" only as their ending, and
for each value of `minify`, the descriptors made by `bundleCSS` have pairwise
distinct output file paths. -/
theorem stylesheet_outputs_distinct (minify : Bool) (inputFiles : List String)
    (hnames : (inputFiles.map lastSegment).Nodup)
    (htrailing : ∀ p ∈ inputFiles, ∃ stem : String,
      lastSegment p = stem ++ ".scss" ∧ ¬ scss <:+: stem.data) :
    ((inputFiles.map (cssDescriptor minify)).map (fun d => d.output.files)).flatten.Nodup := by
  have hflat : ((inputFiles.map (cssDescriptor minify)).map (fun d => d.output.files)).flatten
      = inputFiles.map (fun p => "./dist/css/" ++
          replaceFirst (lastSegment p) ".scss" ((if minify then ".min" else "") ++ ".css")) := by
    rw [List.map_map]
    induction inputFiles with
    | nil => rfl
    | cons p ps ih =>
      simp only [List.map_cons, List.flatten]
      rw [ih (List.Nodup.of_cons (by simpa using hnames))
        (fun q hq => htrailing q (List.mem_cons_of_mem p hq))]
      rfl
  rw [hflat]
  apply List.Nodup.map_on _ (List.Nodup.of_map lastSegment hnames)
  intro p hp q hq hpq
  obtain ⟨sp, hsp, hnp⟩ := htrailing p hp
  obtain ⟨sq, hsq, hnq⟩ := htrailing q hq
  rw [hsp, hsq, replaceFirst_trailing sp _ hnp, replaceFirst_trailing sq _ hnq] at hpq
  have h1 := string_append_right_cancel _ _ _ (string_append_left_cancel _ _ _ hpq)
  apply List.inj_on_of_nodup_map hnames hp hq
  rw [hsp, hsq, h1]

/-- Claim C20, witness: two stylesheet entries with different file names, in
different directories. -/
theorem stylesheet_outputs_distinct_witness :
    ["./dist/css/tabulator.min.css", "./dist/css/tabulator_midnight.min.css"].Nodup :=
  stylesheet_outputs_distinct true
    ["./src/scss/tabulator.scss", "./src/scss/themes/tabulator_midnight.scss"] (by decide)
    (fun p hp => by
      simp only [List.mem_cons, List.mem_singleton, List.not_mem_nil, or_false] at hp
      rcases hp with rfl | rfl
      · exact ⟨"tabulator", by decide, by decide⟩
      · exact ⟨"tabulator_midnight", by decide, by decide⟩)


/-! ## The file system under the modes -/

theorem build_clear_error {σ : Type} (ops : FsOps σ) (s : State σ) (e : JsError)
    (hclear : ops.emptyDirSync "./dist" s.fs = Except.error e) :
    build ops s = Except.error e := by
  rw [build_eq, clearDist_error ops (consoleLog ["Clearing Dist Files"] s) e hclear, error_bind]

theorem build_read_error {σ : Type} (ops : FsOps σ) (s : State σ) (fs1 : σ) (e : JsError)
    (hclear : ops.emptyDirSync "./dist" s.fs = Except.ok fs1)
    (hread : ops.readFileSync wrapperSource fs1 = Except.error e) :
    build ops s = Except.error e := by
  rw [build_eq, clearDist_ok ops (consoleLog ["Clearing Dist Files"] s) fs1 hclear, ok_bind,
    buildWrappers_read_error ops _ e hread, error_bind]

theorem build_write_error {σ : Type} (ops : FsOps σ) (s : State σ) (fs1 : σ) (content : String)
    (e : JsError)
    (hclear : ops.emptyDirSync "./dist" s.fs = Except.ok fs1)
    (hread : ops.readFileSync wrapperSource fs1 = Except.ok content)
    (hwrite : ops.outputFileSync wrapperTarget (replaceCRLF content) fs1 = Except.error e) :
    build ops s = Except.error e := by
  rw [build_eq, clearDist_ok ops (consoleLog ["Clearing Dist Files"] s) fs1 hclear, ok_bind,
    buildWrappers_write_error ops _ content e hread hwrite, error_bind]

theorem build_glob_error {σ : Type} (ops : FsOps σ) (s : State σ) (fs1 fs2 : σ)
    (content : String) (e : JsError)
    (hclear : ops.emptyDirSync "./dist" s.fs = Except.ok fs1)
    (hread : ops.readFileSync wrapperSource fs1 = Except.ok content)
    (hwrite : ops.outputFileSync wrapperTarget (replaceCRLF content) fs1 = Except.ok fs2)
    (hglob : ops.globbySync stylesheetGlob fs2 = Except.error e) :
    build ops s = Except.error e := by
  rw [build_eq, clearDist_ok ops (consoleLog ["Clearing Dist Files"] s) fs1 hclear, ok_bind,
    buildWrappers_ok ops _ content fs2 hread hwrite, ok_bind,
    bundleCSS_error ops false _ e hglob, error_bind]

/-- Outside the "wrappers" mode a successful `watch` leaves the file system as it was. -/
theorem watch_fs {σ : Type} (ops : FsOps σ) (env : String) (s s' : State σ)
    (henv : env ≠ "wrappers") (hrun : watch ops env s = Except.ok s') : s'.fs = s.fs := by
  rw [watch_eq] at hrun
  split at hrun
  · obtain ⟨inputFiles, _, rfl⟩ := bundleCSS_inv ops false _ s' hrun
    rfl
  split at hrun
  · cases hrun; rfl
  split at hrun
  · cases hrun; rfl
  rcases except_cases
    (bundleCSS ops false (consoleLog ["Building Dev Package Bundles: ", env] s))
    with ⟨e, h1⟩ | ⟨s1, h1⟩
  · rw [h1, error_bind] at hrun; cases hrun
  rw [h1, ok_bind] at hrun
  cases hrun
  obtain ⟨inputFiles, _, rfl⟩ := bundleCSS_inv ops false _ s1 h1
  rfl

/-- Unpacking a successful `bundle()` in a dev mode. -/
theorem bundle_present_inv {σ : Type} (ops : FsOps σ) (s : State σ) (env : String)
    (h : s.env = some env) (hne : env ≠ "") (ds : List Descriptor) (final : State σ)
    (hrun : bundle ops s = Except.ok (ds, final)) :
    watch ops env s = Except.ok final ∧ ds = final.bundles := by
  rw [bundle_present ops s env h hne] at hrun
  rcases except_cases (watch ops env s) with ⟨e, h1⟩ | ⟨s1, h1⟩
  · rw [h1, error_bind] at hrun; cases hrun
  rw [h1, ok_bind] at hrun
  cases hrun
  exact ⟨h1, rfl⟩

/-- Claim C13, counterexample: the empty string is a present `env`, yet with it
`bundle()` empties the output directory and copies the wrapper: in the sample
tree the stale output file is gone afterwards and the wrapper copy is there. -/
theorem bundle_empty_env_clears_dist :
    ∃ ds final, bundle memoryFs (constructor "6.3.0" (some "") sampleFiles) = Except.ok (ds, final) ∧
      sampleFiles.lookup "./dist/js/old.js" = some "z" ∧
      final.fs.lookup "./dist/js/old.js" = none ∧
      final.fs.lookup "./dist/js/jquery_wrapper.js" = some "a\nb" ∧
      final.fs ≠ sampleFiles :=
  ⟨_, _, rfl, by decide, by decide, by decide, by decide⟩

/-- Claim C13, as amended: for every non-empty `env`, `bundle()` never empties the
output directory (its outcome does not depend on `emptyDirSync`); when `env` is
not "wrappers" it copies no wrapper either (its outcome does not depend on
`readFileSync` and `outputFileSync`) and a successful run ends in the file
system it started in; when `env` is "wrappers" the only change is the one
write of the wrapper target.  The "esm" and "umd" modes always succeed.  (The
empty string runs the release sequence, as an absent `env` does.) -/
theorem bundle_dev_modes_fs {σ : Type} (ops : FsOps σ) (version env : String) (fs : σ)
    (henv : env ≠ "") :
    (∀ emptyDirSync',
      bundle { ops with emptyDirSync := emptyDirSync' } (constructor version (some env) fs) =
        bundle ops (constructor version (some env) fs)) ∧
    (env ≠ "wrappers" →
      (∀ readFileSync' outputFileSync',
        bundle { ops with readFileSync := readFileSync', outputFileSync := outputFileSync' }
            (constructor version (some env) fs) =
          bundle ops (constructor version (some env) fs)) ∧
      ∀ ds final, bundle ops (constructor version (some env) fs) = Except.ok (ds, final) →
        final.fs = fs) ∧
    (env = "wrappers" →
      ∀ ds final, bundle ops (constructor version (some env) fs) = Except.ok (ds, final) →
        ∃ content, ops.readFileSync wrapperSource fs = Except.ok content ∧
          ops.outputFileSync wrapperTarget (replaceCRLF content) fs = Except.ok final.fs) ∧
    ((env = "esm" ∨ env = "umd") →
      ∃ ds final, bundle ops (constructor version (some env) fs) = Except.ok (ds, final) ∧
        final.fs = fs) := by
  refine ⟨?_, ?_, ?_, ?_⟩
  · intro emptyDirSync'
    rw [bundle_present _ _ env rfl henv, bundle_present _ _ env rfl henv]
    rfl
  · intro hw
    constructor
    · intro readFileSync' outputFileSync'
      rw [bundle_present _ _ env rfl henv, bundle_present _ _ env rfl henv, watch_eq, watch_eq]
      simp only [if_neg hw]
      rfl
    · intro ds final hrun
      obtain ⟨h1, _⟩ := bundle_present_inv ops _ env rfl henv ds final hrun
      exact watch_fs ops env _ final hw h1
  · intro hw ds final hrun
    obtain ⟨h1, _⟩ := bundle_present_inv ops _ env rfl henv ds final hrun
    subst hw
    rw [watch_eq, if_neg (by decide), if_neg (by decide), if_neg (by decide), if_pos rfl] at h1
    obtain ⟨content, fs', hr, hwr, rfl⟩ := buildWrappers_inv ops _ final h1
    exact ⟨content, hr, hwr⟩
  · intro h
    rcases h with rfl | rfl
    · rw [bundle_present _ _ "esm" rfl henv, watch_eq, if_neg (by decide), if_pos rfl, ok_bind]
      exact ⟨_, _, rfl, rfl⟩
    · rw [bundle_present _ _ "umd" rfl henv, watch_eq, if_neg (by decide), if_neg (by decide),
        if_pos rfl, ok_bind]
      exact ⟨_, _, rfl, rfl⟩

/-- Claim C13, witness: the "css" mode on the sample tree succeeds and leaves the
tree, stale output file included, as it was. -/
theorem bundle_dev_modes_fs_witness :
    ∃ ds final, bundle memoryFs (constructor "6.3.0" (some "css") sampleFiles) =
        Except.ok (ds, final) ∧ final.fs = sampleFiles :=
  ⟨_, _, rfl,
    ((bundle_dev_modes_fs memoryFs "6.3.0" "css" sampleFiles (by decide)).2.1 (by decide)).2
      _ _ rfl⟩


/-! ## The wrapper copy in the concrete file system -/

theorem lookup_filter_self (files : Files) (path : String) :
    (files.filter (fun entry => entry.1 ≠ path)).lookup path = none := by
  rw [List.lookup_eq_none_iff]
  intro p hp
  have h := (List.mem_filter.1 hp).2
  simp only [ne_eq, decide_not, Bool.not_eq_true', decide_eq_false_iff_not] at h
  simp only [bne_iff_ne, ne_eq]
  exact fun h2 => h h2.symm

theorem lookup_filter_other (files : Files) (path other : String) (h : other ≠ path) :
    (files.filter (fun entry => entry.1 ≠ path)).lookup other = files.lookup other := by
  induction files with
  | nil => rfl
  | cons entry files ih =>
    obtain ⟨key, value⟩ := entry
    by_cases hk : key = path
    · subst hk
      have hne : (other == key) = false := by simpa using h
      simp only [List.filter, ne_eq, not_true_eq_false, decide_False, List.lookup_cons, hne]
      exact ih
    · simp only [List.filter, ne_eq, hk, not_false_eq_true, decide_True, List.lookup_cons]
      rw [← ih]

/-- Writing a file in the concrete file system: the path holds the content
afterwards and every other path reads as before. -/
theorem memoryFs_outputFileSync (files : Files) (path content : String) :
    ∃ files', memoryFs.outputFileSync path content files = Except.ok files' ∧
      files'.lookup path = some content ∧
      ∀ other, other ≠ path → files'.lookup other = files.lookup other := by
  refine ⟨_, rfl, ?_, ?_⟩
  · rw [List.lookup_append, lookup_filter_self]
    simp
  · intro other h
    rw [List.lookup_append, lookup_filter_other files path other h]
    have hne : (other == path) = false := by simpa using h
    cases files.lookup other with
    | none => simp [List.lookup_cons, hne]
    | some c => rfl

theorem memoryFs_readFileSync (files : Files) (path content : String)
    (h : files.lookup path = some content) :
    memoryFs.readFileSync path files = Except.ok content := by
  simp only [memoryFs, h]

/-- Claim C15: in a file system where the wrapper source exists with content `c`,
`buildWrappers` succeeds; afterwards the wrapper target holds `c` with every
CRLF replaced by a line-feed, every other path reads as before (so nothing
else is written and the source is unchanged), and the descriptor collection is
the same. -/
theorem buildWrappers_copy (s : State Files) (content : String)
    (hsource : s.fs.lookup wrapperSource = some content) :
    ∃ s', buildWrappers memoryFs s = Except.ok s' ∧
      s'.fs.lookup wrapperTarget = some (replaceCRLF content) ∧
      (∀ path, path ≠ wrapperTarget → s'.fs.lookup path = s.fs.lookup path) ∧
      s'.fs.lookup wrapperSource = some content ∧
      s'.bundles = s.bundles := by
  obtain ⟨files', hwrite, htarget, hother⟩ :=
    memoryFs_outputFileSync s.fs wrapperTarget (replaceCRLF content)
  have hread := memoryFs_readFileSync s.fs wrapperSource content hsource
  refine ⟨{ s with fs := files' }, buildWrappers_ok memoryFs s content files' hread hwrite,
    htarget, hother, ?_, rfl⟩
  have h := hother wrapperSource (by decide)
  rw [hsource] at h
  exact h

/-- Claim C15, witness: the wrapper of the sample tree, with content "a\r\nb", is
copied as "a\nb". -/
theorem buildWrappers_copy_witness :
    ∃ s', buildWrappers memoryFs (constructor "6.3.0" (some "wrappers") sampleFiles) =
        Except.ok s' ∧
      s'.fs.lookup "./dist/js/jquery_wrapper.js" = some "a\nb" := by
  obtain ⟨s', h1, h2, _⟩ :=
    buildWrappers_copy (constructor "6.3.0" (some "wrappers") sampleFiles) "a\r\nb" (by decide)
  exact ⟨s', h1, h2⟩


/-! ## What the hook leaves alone -/

/-- Claim C16: the `generateBundle` hook keeps the file names, in order; for every
entry it keeps the type and every property other than `code` and `source`; an
artifact whose type is neither asset nor chunk is unchanged; a `source` that is
not a string (binary or absent) and an absent `code` are unchanged. -/
theorem generateBundle_frame (bundle : List (String × Artifact)) :
    (generateBundle bundle).map Prod.fst = bundle.map Prod.fst ∧
    ∀ (i : Nat) (fileName : String) (a : Artifact), bundle[i]? = some (fileName, a) →
      ∃ a', (generateBundle bundle)[i]? = some (fileName, a') ∧
        a'.type = a.type ∧ a'.rest = a.rest ∧
        (¬ (a.type = "asset" ∨ a.type = "chunk") → a' = a) ∧
        (∀ bytes, a.source = Source.binary bytes → a'.source = Source.binary bytes) ∧
        (a.source = Source.undefined → a'.source = Source.undefined) ∧
        (a.code = none → a'.code = none) := by
  constructor
  · simp [generateBundle, List.map_map, Function.comp_def]
  · intro i fileName a hentry
    refine ⟨normalizeArtifact a, ?_, normalizeArtifact_type a, ?_, ?_, ?_, ?_, ?_⟩
    · rw [generateBundle_getElem?, hentry]
      rfl
    · by_cases h : a.type = "asset" ∨ a.type = "chunk"
      · rw [normalizeArtifact_of_type a h]
      · rw [normalizeArtifact_of_not_type a h]
    · exact normalizeArtifact_of_not_type a
    · intro bytes hb
      by_cases h : a.type = "asset" ∨ a.type = "chunk"
      · rw [normalizeArtifact_of_type a h]
        simp [hb]
      · rw [normalizeArtifact_of_not_type a h, hb]
    · intro hu
      by_cases h : a.type = "asset" ∨ a.type = "chunk"
      · rw [normalizeArtifact_of_type a h]
        simp [hu]
      · rw [normalizeArtifact_of_not_type a h, hu]
    · intro hc
      by_cases h : a.type = "asset" ∨ a.type = "chunk"
      · rw [normalizeArtifact_of_type a h]
        simp [hc]
      · rw [normalizeArtifact_of_not_type a h, hc]

/-- Claim C16, witness: the binary asset of the sample bundle, whose bytes are a
carriage-return and a line-feed, comes out of the hook unchanged. -/
theorem generateBundle_frame_witness :
    ∃ a', (generateBundle sampleBundle)[1]? = some ("logo.png", a') ∧
      a'.source = Source.binary [13, 10] := by
  obtain ⟨a', h1, _, _, _, h5, _⟩ := (generateBundle_frame sampleBundle).2 1 "logo.png"
    { type := "asset", code := none, source := Source.binary [13, 10], rest := [] } rfl
  exact ⟨a', h1, h5 [13, 10] rfl⟩

/-! ## The banner -/

theorem version_bundleCSS {σ : Type} (ops : FsOps σ) (minify : Bool) (s s' : State σ)
    (hrun : bundleCSS ops minify s = Except.ok s') : s'.version = s.version := by
  obtain ⟨inputFiles, _, rfl⟩ := bundleCSS_inv ops minify s s' hrun
  rfl

theorem version_clearDist {σ : Type} (ops : FsOps σ) (s s' : State σ)
    (hrun : clearDist ops s = Except.ok s') : s'.version = s.version := by
  obtain ⟨fs, _, rfl⟩ := clearDist_inv ops s s' hrun
  rfl

theorem version_buildWrappers {σ : Type} (ops : FsOps σ) (s s' : State σ)
    (hrun : buildWrappers ops s = Except.ok s') : s'.version = s.version := by
  obtain ⟨content, fs, _, _, rfl⟩ := buildWrappers_inv ops s s' hrun
  rfl

theorem version_build {σ : Type} (ops : FsOps σ) (s s' : State σ)
    (hrun : build ops s = Except.ok s') : s'.version = s.version := by
  obtain ⟨s1, s2, s3, s4, h1, h2, h3, h4, rfl⟩ := build_inv ops s s' hrun
  have a1 := version_clearDist ops _ s1 h1
  have a2 := version_buildWrappers ops _ s2 h2
  have a3 := version_bundleCSS ops false _ s3 h3
  have a4 := version_bundleCSS ops true _ s4 h4
  show s4.version = s.version
  rw [a4, a3]
  show s2.version = s.version
  rw [a2]
  exact a1

theorem version_watch {σ : Type} (ops : FsOps σ) (env : String) (s s' : State σ)
    (hrun : watch ops env s = Except.ok s') : s'.version = s.version := by
  rw [watch_eq] at hrun
  split at hrun
  · have h := version_bundleCSS ops false _ s' hrun
    exact h
  split at hrun
  · cases hrun; rfl
  split at hrun
  · cases hrun; rfl
  split at hrun
  · have h := version_buildWrappers ops _ s' hrun
    exact h
  rcases except_cases
    (bundleCSS ops false (consoleLog ["Building Dev Package Bundles: ", env] s))
    with ⟨e, h1⟩ | ⟨s1, h1⟩
  · rw [h1, error_bind] at hrun; cases hrun
  rw [h1, ok_bind] at hrun
  cases hrun
  have h := version_bundleCSS ops false _ s1 h1
  exact h

/-- The method `bundle()` never changes `this.version`. -/
theorem version_bundle {σ : Type} (ops : FsOps σ) (s : State σ) (ds : List Descriptor)
    (final : State σ) (hrun : bundle ops s = Except.ok (ds, final)) :
    final.version = s.version := by
  rw [bundle_eq] at hrun
  rcases except_cases (match s.env with
    | none => build ops s
    | some env => if env ≠ "" then watch ops env s else build ops s) with ⟨e, h1⟩ | ⟨s1, h1⟩
  · rw [h1, error_bind] at hrun; cases hrun
  rw [h1, ok_bind] at hrun
  cases hrun
  split at h1
  · exact version_build ops s _ h1
  · split at h1
    · exact version_watch ops _ s _ h1
    · exact version_build ops s _ h1

/-- Claim C17: for every version string `v`, the ESM and the UMD descriptor, minified
or not, as built on a `Bundler` constructed with `v`, carry exactly one license
step, with comment style "none" and the content
"/* Tabulator v" + v + " (c) Oliver Folkerd <%= moment().format('YYYY') %> */";
no stylesheet descriptor carries a license step; and every descriptor returned
by `bundle()` is one of these. -/
theorem banner_on_js_targets (version : String) :
    (∀ minify, (esmDescriptor (banner version) minify).banners =
      [⟨"none", "/* Tabulator v" ++ version ++
        " (c) Oliver Folkerd <%= moment().format('YYYY') %> */"⟩]) ∧
    (∀ minify, (umdDescriptor (banner version) minify).banners =
      [⟨"none", "/* Tabulator v" ++ version ++
        " (c) Oliver Folkerd <%= moment().format('YYYY') %> */"⟩]) ∧
    (∀ minify inputFile, (cssDescriptor minify inputFile).banners = []) ∧
    (∀ (σ : Type) (env : Option String) (fs : σ) (minify : Bool),
      (bundleESM minify (constructor version env fs)).bundles =
        [esmDescriptor (banner version) minify] ∧
      (bundleUMD minify (constructor version env fs)).bundles =
        [umdDescriptor (banner version) minify]) ∧
    (∀ (σ : Type) (ops : FsOps σ) (env : Option String) (fs : σ) (ds : List Descriptor)
      (final : State σ), bundle ops (constructor version env fs) = Except.ok (ds, final) →
      ∀ d ∈ ds, (∃ minify inputFile, d = cssDescriptor minify inputFile) ∨
        (∃ minify, d = esmDescriptor (banner version) minify) ∨
        (∃ minify, d = umdDescriptor (banner version) minify)) := by
  refine ⟨?_, ?_, ?_, ?_, ?_⟩
  · intro minify
    cases minify <;> rfl
  · intro minify
    cases minify <;> rfl
  · intro minify inputFile
    rfl
  · intro σ env fs minify
    exact ⟨rfl, rfl⟩
  · intro σ ops env fs ds final hrun d hd
    obtain ⟨hall, rfl⟩ := allBuilt_bundle ops _ ds final (allBuilt_constructor version env fs) hrun
    have hv : final.version = banner version := version_bundle ops _ _ final hrun
    have hb := hall d hd
    rw [hv] at hb
    exact hb

/-- Claim C17, witness: for version 6.3.0 the unminified ESM descriptor carries the
banner of that version, and it is the descriptor the "esm" mode returns on the
sample tree. -/
theorem banner_on_js_targets_witness :
    (esmDescriptor (banner "6.3.0") false).banners =
        [⟨"none", "/* Tabulator v6.3.0 (c) Oliver Folkerd <%= moment().format('YYYY') %> */"⟩] ∧
      ((∃ minify inputFile,
          esmDescriptor (banner "6.3.0") false = cssDescriptor minify inputFile) ∨
        (∃ minify, esmDescriptor (banner "6.3.0") false = esmDescriptor (banner "6.3.0") minify) ∨
        (∃ minify, esmDescriptor (banner "6.3.0") false = umdDescriptor (banner "6.3.0") minify)) :=
  ⟨(banner_on_js_targets "6.3.0").1 false,
    (banner_on_js_targets "6.3.0").2.2.2.2 Files memoryFs (some "esm") sampleFiles _ _ rfl
      (esmDescriptor (banner "6.3.0") false) (by decide)⟩

/-- Claim C18: for both values of `minify`, `bundleUMD` appends exactly one
descriptor; its output is a single object, not an array, with format "umd",
name "Tabulator", esModule false, exports "default", sourcemap true and file
"dist/js/tabulator" + (".min" iff minify) + ".js"; its `onwarn` is the handler
of the ESM descriptor. -/
theorem bundleUMD_output {σ : Type} (minify : Bool) (s : State σ) :
    ∃ d, (bundleUMD minify s).bundles = s.bundles ++ [d] ∧
      d.output = Output.single
        { file := "dist/js/tabulator" ++ (if minify then ".min" else "") ++ ".js",
          format := "umd", name := some "Tabulator", esModule := some false,
          exports := some "default", sourcemap := some true } ∧
      d.onwarn = (esmDescriptor s.version minify).onwarn ∧
      (∀ warn, d.onwarn.call warn = (esmDescriptor s.version minify).onwarn.call warn) ∧
      d.input = "src/js/builds/usd.js" :=
  ⟨umdDescriptor s.version minify, rfl, rfl, rfl, fun _ => rfl, rfl⟩

/-- Claim C19: each of `bundleCSS`, `bundleESM`, `bundleUMD`, `buildWrappers` and
`clearDist` keeps the collection it finds as an unchanged prefix of the
collection it leaves, and appends exactly `k` descriptors: the number of
discovered stylesheets for `bundleCSS`, one for `bundleESM` and `bundleUMD`,
none for `buildWrappers` and `clearDist`.  The three fallible ones succeed
when their external calls do. -/
theorem append_only_accumulator {σ : Type} (ops : FsOps σ) (s : State σ) :
    (∀ minify inputFiles, ops.globbySync stylesheetGlob s.fs = Except.ok inputFiles →
      ∃ s' new, bundleCSS ops minify s = Except.ok s' ∧ s'.bundles = s.bundles ++ new ∧
        new.length = inputFiles.length ∧ s.bundles <+: s'.bundles) ∧
    (∀ minify s', bundleCSS ops minify s = Except.ok s' →
      ∃ inputFiles new, ops.globbySync stylesheetGlob s.fs = Except.ok inputFiles ∧
        s'.bundles = s.bundles ++ new ∧ new.length = inputFiles.length) ∧
    (∀ minify, ∃ d, (bundleESM minify s).bundles = s.bundles ++ [d] ∧
      s.bundles <+: (bundleESM minify s).bundles) ∧
    (∀ minify, ∃ d, (bundleUMD minify s).bundles = s.bundles ++ [d] ∧
      s.bundles <+: (bundleUMD minify s).bundles) ∧
    (∀ content fs, ops.readFileSync wrapperSource s.fs = Except.ok content →
      ops.outputFileSync wrapperTarget (replaceCRLF content) s.fs = Except.ok fs →
      ∃ s', buildWrappers ops s = Except.ok s' ∧ s'.bundles = s.bundles) ∧
    (∀ s', buildWrappers ops s = Except.ok s' → s'.bundles = s.bundles) ∧
    (∀ fs, ops.emptyDirSync "./dist" s.fs = Except.ok fs →
      ∃ s', clearDist ops s = Except.ok s' ∧ s'.bundles = s.bundles) ∧
    (∀ s', clearDist ops s = Except.ok s' → s'.bundles = s.bundles) := by
  refine ⟨?_, ?_, ?_, ?_, ?_, ?_, ?_, ?_⟩
  · intro minify inputFiles hglob
    exact ⟨_, inputFiles.map (cssDescriptor minify), bundleCSS_ok ops minify s inputFiles hglob,
      rfl, by simp, List.prefix_append _ _⟩
  · intro minify s' hrun
    obtain ⟨inputFiles, hglob, rfl⟩ := bundleCSS_inv ops minify s s' hrun
    exact ⟨inputFiles, inputFiles.map (cssDescriptor minify), hglob, rfl, by simp⟩
  · intro minify
    exact ⟨esmDescriptor s.version minify, rfl, List.prefix_append _ _⟩
  · intro minify
    exact ⟨umdDescriptor s.version minify, rfl, List.prefix_append _ _⟩
  · intro content fs hread hwrite
    exact ⟨_, buildWrappers_ok ops s content fs hread hwrite, rfl⟩
  · intro s' hrun
    obtain ⟨content, fs, _, _, rfl⟩ := buildWrappers_inv ops s s' hrun
    rfl
  · intro fs hclear
    exact ⟨_, clearDist_ok ops s fs hclear, rfl⟩
  · intro s' hrun
    obtain ⟨fs, _, rfl⟩ := clearDist_inv ops s s' hrun
    rfl

/-- Claim C19, witness: on a state that already holds the ESM descriptor, `bundleCSS`
on the sample tree keeps it in front and appends one stylesheet descriptor. -/
theorem append_only_accumulator_witness :
    ∃ s' new, bundleCSS memoryFs true (bundleESM false (constructor "6.3.0" none sampleFiles)) =
        Except.ok s' ∧
      s'.bundles = [esmDescriptor (banner "6.3.0") false] ++ new ∧ new.length = 1 := by
  obtain ⟨s', new, h1, h2, h3, _⟩ :=
    (append_only_accumulator memoryFs (bundleESM false (constructor "6.3.0" none sampleFiles))).1
      true ["./src/scss/tabulator.scss"] rfl
  exact ⟨s', new, h1, h2, h3⟩

/-! ## Failures, with the world kept -/

theorem andThen_none {σ : Type} (s : State σ) (next : State σ → Outcome σ) :
    Outcome.andThen (none, s) next = next s := rfl

theorem andThen_some {σ : Type} (e : JsError) (s : State σ) (next : State σ → Outcome σ) :
    Outcome.andThen (some e, s) next = (some e, s) := rfl

theorem world_clearDist_ok {σ : Type} (fx : FsEffects σ) (s : State σ) (fs : σ)
    (h : fx.emptyDirSync "./dist" s.fs = (Except.ok (), fs)) :
    World.clearDist fx s = (none, { s with fs := fs }) := by
  simp only [World.clearDist, h]

theorem world_clearDist_error {σ : Type} (fx : FsEffects σ) (s : State σ) (fs : σ) (e : JsError)
    (h : fx.emptyDirSync "./dist" s.fs = (Except.error e, fs)) :
    World.clearDist fx s = (some e, { s with fs := fs }) := by
  simp only [World.clearDist, h]

theorem world_buildWrappers_read_error {σ : Type} (fx : FsEffects σ) (s : State σ) (e : JsError)
    (hread : fx.readFileSync wrapperSource s.fs = Except.error e) :
    World.buildWrappers fx s = (some e, s) := by
  have hr : fx.readFileSync ("./src/js/builds/" ++ "jquery_wrapper.js") s.fs
      = Except.error e := hread
  simp only [World.buildWrappers, List.foldl, andThen_none, World.copyWrapper, hr]

theorem world_buildWrappers_write_error {σ : Type} (fx : FsEffects σ) (s : State σ)
    (content : String) (fs : σ) (e : JsError)
    (hread : fx.readFileSync wrapperSource s.fs = Except.ok content)
    (hwrite : fx.outputFileSync wrapperTarget (replaceCRLF content) s.fs = (Except.error e, fs)) :
    World.buildWrappers fx s = (some e, { s with fs := fs }) := by
  have hr : fx.readFileSync ("./src/js/builds/" ++ "jquery_wrapper.js") s.fs
      = Except.ok content := hread
  have hw : fx.outputFileSync ("./dist/js/" ++ "jquery_wrapper.js") (replaceCRLF content) s.fs
      = (Except.error e, fs) := hwrite
  simp only [World.buildWrappers, List.foldl, andThen_none, World.copyWrapper, hr, hw]

theorem world_buildWrappers_ok {σ : Type} (fx : FsEffects σ) (s : State σ)
    (content : String) (fs : σ)
    (hread : fx.readFileSync wrapperSource s.fs = Except.ok content)
    (hwrite : fx.outputFileSync wrapperTarget (replaceCRLF content) s.fs = (Except.ok (), fs)) :
    World.buildWrappers fx s = (none, { s with fs := fs }) := by
  have hr : fx.readFileSync ("./src/js/builds/" ++ "jquery_wrapper.js") s.fs
      = Except.ok content := hread
  have hw : fx.outputFileSync ("./dist/js/" ++ "jquery_wrapper.js") (replaceCRLF content) s.fs
      = (Except.ok (), fs) := hwrite
  simp only [World.buildWrappers, List.foldl, andThen_none, World.copyWrapper, hr, hw]

theorem world_bundleCSS_ok {σ : Type} (fx : FsEffects σ) (minify : Bool) (s : State σ)
    (inputFiles : List String)
    (h : fx.globbySync stylesheetGlob s.fs = Except.ok inputFiles) :
    World.bundleCSS fx minify s =
      (none, { s with bundles := s.bundles ++ inputFiles.map (cssDescriptor minify) }) := by
  simp only [World.bundleCSS, h]

theorem world_bundleCSS_error {σ : Type} (fx : FsEffects σ) (minify : Bool) (s : State σ)
    (e : JsError) (h : fx.globbySync stylesheetGlob s.fs = Except.error e) :
    World.bundleCSS fx minify s = (some e, s) := by
  simp only [World.bundleCSS, h]

/-- The method `bundle()` with the world kept, by the value of `env`. -/
theorem world_bundle_absent {σ : Type} (fx : FsEffects σ) (s : State σ) (h : s.env = none) :
    World.bundle fx s =
      (match World.build fx s with
       | (none, s') => (Except.ok s'.bundles, s')
       | (some e, s') => (Except.error e, s')) := by
  simp only [World.bundle, h]

theorem world_bundle_present {σ : Type} (fx : FsEffects σ) (s : State σ) (env : String)
    (h : s.env = some env) (hne : env ≠ "") :
    World.bundle fx s =
      (match World.watch fx env s with
       | (none, s') => (Except.ok s'.bundles, s')
       | (some e, s') => (Except.error e, s')) := by
  simp only [World.bundle, h, if_pos hne]


/-! ### Agreement of the two readings of the methods -/

theorem pair_cases {α β : Type} (p : α × β) : ∃ a b, p = (a, b) := ⟨p.1, p.2, rfl⟩

theorem toExcept_andThen {σ : Type} (first : Outcome σ) (next : State σ → Outcome σ) :
    (first.andThen next).toExcept = (first.toExcept >>= fun s => (next s).toExcept) := by
  obtain ⟨err, s⟩ := first
  cases err with
  | none => rfl
  | some e => rfl

theorem world_clearDist_toExcept {σ : Type} (fx : FsEffects σ) (s : State σ) :
    (World.clearDist fx s).toExcept = clearDist fx.toOps s := by
  obtain ⟨r, fs, h⟩ := pair_cases (fx.emptyDirSync "./dist" s.fs)
  cases r with
  | ok u =>
    have h2 : fx.toOps.emptyDirSync "./dist" s.fs = Except.ok fs := by
      simp only [FsEffects.toOps, h]
    rw [world_clearDist_ok fx s fs h, clearDist_ok fx.toOps s fs h2]
    rfl
  | error e =>
    have h2 : fx.toOps.emptyDirSync "./dist" s.fs = Except.error e := by
      simp only [FsEffects.toOps, h]
    rw [world_clearDist_error fx s fs e h, clearDist_error fx.toOps s e h2]
    rfl

theorem world_buildWrappers_toExcept {σ : Type} (fx : FsEffects σ) (s : State σ) :
    (World.buildWrappers fx s).toExcept = buildWrappers fx.toOps s := by
  rcases except_cases (fx.readFileSync wrapperSource s.fs) with ⟨e, hr⟩ | ⟨content, hr⟩
  · rw [world_buildWrappers_read_error fx s e hr, buildWrappers_read_error fx.toOps s e hr]
    rfl
  · obtain ⟨r, fs, hw⟩ := pair_cases (fx.outputFileSync wrapperTarget (replaceCRLF content) s.fs)
    cases r with
    | ok u =>
      have hw2 : fx.toOps.outputFileSync wrapperTarget (replaceCRLF content) s.fs
          = Except.ok fs := by
        simp only [FsEffects.toOps, hw]
      rw [world_buildWrappers_ok fx s content fs hr hw,
        buildWrappers_ok fx.toOps s content fs hr hw2]
      rfl
    | error e =>
      have hw2 : fx.toOps.outputFileSync wrapperTarget (replaceCRLF content) s.fs
          = Except.error e := by
        simp only [FsEffects.toOps, hw]
      rw [world_buildWrappers_write_error fx s content fs e hr hw,
        buildWrappers_write_error fx.toOps s content e hr hw2]
      rfl

theorem world_bundleCSS_toExcept {σ : Type} (fx : FsEffects σ) (minify : Bool) (s : State σ) :
    (World.bundleCSS fx minify s).toExcept = bundleCSS fx.toOps minify s := by
  rcases except_cases (fx.globbySync stylesheetGlob s.fs) with ⟨e, hg⟩ | ⟨inputFiles, hg⟩
  · rw [world_bundleCSS_error fx minify s e hg, bundleCSS_error fx.toOps minify s e hg]
    rfl
  · rw [world_bundleCSS_ok fx minify s inputFiles hg, bundleCSS_ok fx.toOps minify s inputFiles hg]
    rfl

theorem world_build_toExcept {σ : Type} (fx : FsEffects σ) (s : State σ) :
    (World.build fx s).toExcept = build fx.toOps s := by
  rw [build_eq]
  simp only [World.build, toExcept_andThen, world_clearDist_toExcept,
    world_buildWrappers_toExcept, world_bundleCSS_toExcept]
  rfl

theorem world_watch_toExcept {σ : Type} (fx : FsEffects σ) (env : String) (s : State σ) :
    (World.watch fx env s).toExcept = watch fx.toOps env s := by
  rw [watch_eq]
  unfold World.watch
  by_cases h1 : env = "css"
  · simp only [if_pos h1, world_bundleCSS_toExcept]
  by_cases h2 : env = "esm"
  · simp only [if_neg h1, if_pos h2]
    rfl
  by_cases h3 : env = "umd"
  · simp only [if_neg h1, if_neg h2, if_pos h3]
    rfl
  by_cases h4 : env = "wrappers"
  · simp only [if_neg h1, if_neg h2, if_neg h3, if_pos h4, world_buildWrappers_toExcept]
  · simp only [if_neg h1, if_neg h2, if_neg h3, if_neg h4, toExcept_andThen,
      world_bundleCSS_toExcept]
    rfl

/-- The two readings agree: seen through its result alone, `bundle()` with the
world kept is `bundle()` over the library functions with the world forgotten
on failure. -/
theorem world_bundle_agrees {σ : Type} (fx : FsEffects σ) (s : State σ) :
    (match World.bundle fx s with
      | (Except.ok ds, s') => Except.ok (ds, s')
      | (Except.error e, _) => Except.error e) = bundle fx.toOps s := by
  have key : ∀ outcome : Outcome σ,
      (match (match outcome with
          | (none, s') => ((Except.ok s'.bundles : Except JsError (List Descriptor)), s')
          | (some e, s') => (Except.error e, s')) with
        | (Except.ok ds, s') => (Except.ok (ds, s') : Except JsError (List Descriptor × State σ))
        | (Except.error e, _) => Except.error e) =
      (outcome.toExcept >>= fun s' => Except.ok (s'.bundles, s')) := by
    intro outcome
    obtain ⟨err, s'⟩ := outcome
    cases err <;> rfl
  rw [bundle_eq]
  unfold World.bundle
  simp only []
  rw [key]
  congr 1
  cases s.env with
  | none => exact world_build_toExcept fx s
  | some env =>
    by_cases h : env ≠ ""
    · simp only [if_pos h]
      exact world_watch_toExcept fx env s
    · simp only [if_neg h]
      exact world_build_toExcept fx s


/-- Claim C14: with the library calls fallible and the world kept on failure, every
failure a mode reaches ends `bundle()` with that same error and no list, and
nothing is done after it: the file system at the end is the one left by the
failing call (or the one it was read in), for whatever the later calls would
do, and no descriptor has been appended.  In full mode: a failing
`emptyDirSync`, after which no wrapper is read or written; a missing wrapper
source; a failing wrapper write; a failing stylesheet discovery.
`buildWrappers` itself and the "wrappers" mode fail with the error of the
read; the "css" mode and the fallback for an unrecognized `env` fail with the
error of the discovery. -/
theorem failures_are_fatal {σ : Type} (fx : FsEffects σ) (version : String) (fs : σ)
    (e : JsError) :
    (∀ fs1, fx.emptyDirSync "./dist" fs = (Except.error e, fs1) →
      ∃ final, World.bundle fx (constructor version none fs) = (Except.error e, final) ∧
        final.fs = fs1 ∧ final.bundles = []) ∧
    (∀ fs1, fx.emptyDirSync "./dist" fs = (Except.ok (), fs1) →
      fx.readFileSync wrapperSource fs1 = Except.error e →
      ∃ final, World.bundle fx (constructor version none fs) = (Except.error e, final) ∧
        final.fs = fs1 ∧ final.bundles = []) ∧
    (∀ fs1 content fs2, fx.emptyDirSync "./dist" fs = (Except.ok (), fs1) →
      fx.readFileSync wrapperSource fs1 = Except.ok content →
      fx.outputFileSync wrapperTarget (replaceCRLF content) fs1 = (Except.error e, fs2) →
      ∃ final, World.bundle fx (constructor version none fs) = (Except.error e, final) ∧
        final.fs = fs2 ∧ final.bundles = []) ∧
    (∀ fs1 content fs2, fx.emptyDirSync "./dist" fs = (Except.ok (), fs1) →
      fx.readFileSync wrapperSource fs1 = Except.ok content →
      fx.outputFileSync wrapperTarget (replaceCRLF content) fs1 = (Except.ok (), fs2) →
      fx.globbySync stylesheetGlob fs2 = Except.error e →
      ∃ final, World.bundle fx (constructor version none fs) = (Except.error e, final) ∧
        final.fs = fs2 ∧ final.bundles = []) ∧
    (∀ s : State σ, fx.readFileSync wrapperSource s.fs = Except.error e →
      World.buildWrappers fx s = (some e, s)) ∧
    (fx.readFileSync wrapperSource fs = Except.error e →
      ∃ final, World.bundle fx (constructor version (some "wrappers") fs) =
          (Except.error e, final) ∧
        final.fs = fs ∧ final.bundles = []) ∧
    (fx.globbySync stylesheetGlob fs = Except.error e →
      ∃ final, World.bundle fx (constructor version (some "css") fs) = (Except.error e, final) ∧
        final.fs = fs ∧ final.bundles = []) ∧
    (∀ env, env ≠ "" → env ∉ namedModes →
      fx.globbySync stylesheetGlob fs = Except.error e →
      ∃ final, World.bundle fx (constructor version (some env) fs) = (Except.error e, final) ∧
        final.fs = fs ∧ final.bundles = []) := by
  refine ⟨?_, ?_, ?_, ?_, ?_, ?_, ?_, ?_⟩
  · intro fs1 hclear
    rw [world_bundle_absent fx _ rfl]
    unfold World.build
    rw [world_clearDist_error fx (consoleLog ["Clearing Dist Files"] (constructor version none fs)) fs1 e hclear,
      andThen_some]
    exact ⟨_, rfl, rfl, rfl⟩
  · intro fs1 hclear hread
    rw [world_bundle_absent fx _ rfl]
    unfold World.build
    rw [world_clearDist_ok fx (consoleLog ["Clearing Dist Files"] (constructor version none fs)) fs1 hclear, andThen_none,
      world_buildWrappers_read_error fx _ e hread, andThen_some]
    exact ⟨_, rfl, rfl, rfl⟩
  · intro fs1 content fs2 hclear hread hwrite
    rw [world_bundle_absent fx _ rfl]
    unfold World.build
    rw [world_clearDist_ok fx (consoleLog ["Clearing Dist Files"] (constructor version none fs)) fs1 hclear, andThen_none,
      world_buildWrappers_write_error fx _ content fs2 e hread hwrite, andThen_some]
    exact ⟨_, rfl, rfl, rfl⟩
  · intro fs1 content fs2 hclear hread hwrite hglob
    rw [world_bundle_absent fx _ rfl]
    unfold World.build
    rw [world_clearDist_ok fx (consoleLog ["Clearing Dist Files"] (constructor version none fs)) fs1 hclear, andThen_none,
      world_buildWrappers_ok fx _ content fs2 hread hwrite, andThen_none,
      world_bundleCSS_error fx false _ e hglob, andThen_some]
    exact ⟨_, rfl, rfl, rfl⟩
  · intro s hread
    exact world_buildWrappers_read_error fx s e hread
  · intro hread
    rw [world_bundle_present fx _ "wrappers" rfl (by decide)]
    unfold World.watch
    simp only [if_neg (show ¬ ("wrappers" = "css") by decide),
      if_neg (show ¬ ("wrappers" = "esm") by decide),
      if_neg (show ¬ ("wrappers" = "umd") by decide), if_true]
    rw [world_buildWrappers_read_error fx _ e hread]
    exact ⟨_, rfl, rfl, rfl⟩
  · intro hglob
    rw [world_bundle_present fx _ "css" rfl (by decide)]
    unfold World.watch
    simp only [if_true]
    rw [world_bundleCSS_error fx false _ e hglob]
    exact ⟨_, rfl, rfl, rfl⟩
  · intro env hne hnamed hglob
    simp only [namedModes, List.mem_cons, List.mem_singleton, List.not_mem_nil, or_false,
      not_or] at hnamed
    rw [world_bundle_present fx _ env rfl hne]
    unfold World.watch
    simp only [if_neg hnamed.1, if_neg hnamed.2.1, if_neg hnamed.2.2.1, if_neg hnamed.2.2.2]
    rw [world_bundleCSS_error fx false _ e hglob, andThen_some]
    exact ⟨_, rfl, rfl, rfl⟩

/-- Claim C14, witness: over an output directory that cannot be emptied the release
run on the sample tree fails with the error of `emptyDirSync` and leaves the
tree as it was, without the wrapper copy, although a write would have
succeeded; in a tree without the wrapper source the "wrappers" mode fails with
the error of the read. -/
theorem failures_are_fatal_witness :
    (∃ final, World.bundle lockedEffects (constructor "6.3.0" none sampleFiles) =
        (Except.error (JsError.library "EACCES: permission denied, unlink ./dist"), final) ∧
      final.fs = sampleFiles ∧ final.bundles = []) ∧
    sampleFiles.lookup "./dist/js/jquery_wrapper.js" = none ∧
    (∃ final, World.bundle memoryEffects (constructor "6.3.0" (some "wrappers") noWrapperFiles) =
        (Except.error (JsError.library
          "ENOENT: no such file or directory, open ./src/js/builds/jquery_wrapper.js"), final) ∧
      final.fs = noWrapperFiles ∧ final.bundles = []) :=
  ⟨(failures_are_fatal lockedEffects "6.3.0" sampleFiles
      (JsError.library "EACCES: permission denied, unlink ./dist")).1 sampleFiles rfl,
    by decide,
    (failures_are_fatal memoryEffects "6.3.0" noWrapperFiles
      (JsError.library
        "ENOENT: no such file or directory, open ./src/js/builds/jquery_wrapper.js")).2.2.2.2.2.1
      rfl⟩

end Bundler
